import Mathlib

/-!
# ManaServ: chat channel registry and DAL storage

A shallow embedding of the channel registry declared in
`src/chat-server/chatchannelmanager.hpp` and of the storage engine declared in
`src/account-server/dalstorage.hpp`.

The headers give the data members, their C++ types and the signatures of the
operations.  The bodies of the member functions live in `.cpp` files that are
not part of the sources at hand; every definition that embeds such a body says
so in its doc comment and follows the wording of the specification.
-/

namespace ManaServ

/-! ## Ordered maps (`std::map`) as association lists -/

/-- Lookup of a key (`std::map::find`): the first entry carrying the key. -/
def mapFind {κ α : Type} [LinearOrder κ] : List (κ × α) → κ → Option α
  | [], _ => none
  | (k', v) :: rest, k => if k' = k then some v else mapFind rest k

/-- Removal of a key (`std::map::erase`). -/
def mapErase {κ α : Type} [LinearOrder κ] (m : List (κ × α)) (k : κ) : List (κ × α) :=
  m.filter (fun e => decide (e.1 ≠ k))

/-- Registration of a value under a key, in key order as `std::map` keeps its
entries; the value found under the key afterwards is the new one. -/
def mapSet {κ α : Type} [LinearOrder κ] : List (κ × α) → κ → α → List (κ × α)
  | [], k, v => [(k, v)]
  | (k', v') :: rest, k, v =>
    if k < k' then (k, v) :: (k', v') :: rest
    else if k = k' then (k, v) :: rest
    else (k', v') :: mapSet rest k v

/-- Insertion that keeps an entry already present under the key
(`std::map::insert`). -/
def mapInsert {κ α : Type} [LinearOrder κ] (m : List (κ × α)) (k : κ) (v : α) :
    List (κ × α) :=
  if (mapFind m k).isSome then m else mapSet m k v

/-- The keys of a map, in iteration order. -/
def mapKeys {κ α : Type} (m : List (κ × α)) : List κ := m.map Prod.fst

/-- The invariant of a `std::map`: entries in strictly increasing key order. -/
def mapSorted {κ α : Type} [LinearOrder κ] (m : List (κ × α)) : Prop :=
  m.Pairwise (fun a b => a.1 < b.1)

/-! ## Chat channels -/

/-- Modelled from the spec: the class `ChatChannel` is declared in
`chat-server/chatchannel.hpp`, which is not among the sources.  The fields are
those the specification lists for a channel and that `createNewChannel`
receives: name, announcement text, password and the joinable flag.  The
numeric ID of a channel is the ID under which the registry holds it. -/
structure ChatChannel where
  name : String
  announcement : String
  password : String
  joinable : Bool
deriving DecidableEq, Repr

/-- Conversion of an `int` to `unsigned short`, the key type the header gives
to `ChatChannelManager::ChatChannels`: reduction modulo 2^16. -/
def toUShort (n : Int) : Nat := (n % 65536).toNat

/-- Modelled from the spec: the data members of `ChatChannelManager`, of which
the header gives the declarations and no code that reads or writes them:
`mChatChannels`, in the specification "the authoritative mapping from channel
ID to live ChatChannel object", `int mNextChannelId` and
`std::deque<int> mChannelsNoLongerUsed` (front of the deque first).  The IDs
are the `int`s that `nextUsable` hands out, `createNewChannel` returns and
`removeChannel` and `channelExists` receive, and every live channel is held
under its ID as handed out.  The header declares the key type of the map as
`unsigned short`; whether the IDs handed out fit that type is examined apart,
with `toUShort`.  The counter is an `int`; signed overflow is undefined in
C++, so the counter is kept as an unbounded integer here. -/
structure ChatChannelManager where
  mChatChannels : List (Int × ChatChannel)
  mNextChannelId : Int
  mChannelsNoLongerUsed : List Int
deriving DecidableEq, Repr

namespace ChatChannelManager

/-- Modelled from the spec: the constructor `ChatChannelManager()`, whose body
is not among the sources.  "IDs are unsigned 16-bit values starting at 1":
no live channel, no freed ID, counter at 1. -/
def construct : ChatChannelManager :=
  { mChatChannels := [], mNextChannelId := 1, mChannelsNoLongerUsed := [] }

/-- Modelled from the spec: `nextUsable()`, declared in the header, body not
among the sources.  "first checks a FIFO/queue of recently-freed IDs and
returns the oldest freed ID if the queue is non-empty; otherwise it returns a
monotonically increasing counter and advances it." -/
def nextUsable (m : ChatChannelManager) : Int × ChatChannelManager :=
  match m.mChannelsNoLongerUsed with
  | id :: rest => (id, { m with mChannelsNoLongerUsed := rest })
  | [] => (m.mNextChannelId, { m with mNextChannelId := m.mNextChannelId + 1 })

/-- Modelled from the spec: `createNewChannel`, declared in the header, body
not among the sources.  "allocates the next usable ID, constructs the channel,
registers it, returns the assigned ID."  The channel is the one held under
the assigned ID afterwards. -/
def createNewChannel (m : ChatChannelManager) (channelName channelAnnouncement
    channelPassword : String) (joinable : Bool) : Int × ChatChannelManager :=
  let channelId := (nextUsable m).1
  let m' := (nextUsable m).2
  let channel : ChatChannel := ⟨channelName, channelAnnouncement, channelPassword, joinable⟩
  (channelId, { m' with mChatChannels := mapSet m'.mChatChannels channelId channel })

/-- Modelled from the spec: `channelExists(int channelId)`, declared in the
header, body not among the sources: whether a live channel is held under the
ID. -/
def channelExists (m : ChatChannelManager) (channelId : Int) : Bool :=
  (mapFind m.mChatChannels channelId).isSome

/-- Modelled from the spec: `channelExists(const std::string &channelName)`,
declared in the header, body not among the sources: whether a live channel
carries the name. -/
def channelExistsByName (m : ChatChannelManager) (channelName : String) : Bool :=
  m.mChatChannels.any (fun e => decide (e.2.name = channelName))

/-- Modelled from the spec: `removeChannel(int channelId)`, declared in the
header, body not among the sources.  "removes the channel from the live set if
present and returns the freed ID to the reuse pool; returns false if the ID
was not in use."  The freed ID is pushed at the back of the
`std::deque<int>`. -/
def removeChannel (m : ChatChannelManager) (channelId : Int) : Bool × ChatChannelManager :=
  match mapFind m.mChatChannels channelId with
  | none => (false, m)
  | some _ =>
    (true, { m with
      mChatChannels := mapErase m.mChatChannels channelId,
      mChannelsNoLongerUsed := m.mChannelsNoLongerUsed ++ [channelId] })

/-- Modelled from the spec: `tryNewPublicChannel(name)`, declared in the
header, body not among the sources.  "convenience wrapper enforcing public
channel names must be unique before creating; returns success/failure rather
than an ID."  The channel is created joinable, with empty announcement and
password. -/
def tryNewPublicChannel (m : ChatChannelManager) (name : String) : Bool × ChatChannelManager :=
  if channelExistsByName m name then (false, m)
  else (true, (createNewChannel m name "" "" true).2)

/-- A call on the registry: `createNewChannel` with its four arguments, or
`removeChannel` with its argument. -/
inductive Op where
  | create (channelName channelAnnouncement channelPassword : String) (joinable : Bool)
  | remove (channelId : Int)
deriving DecidableEq, Repr

/-- The registry after one call. -/
def step (m : ChatChannelManager) : Op → ChatChannelManager
  | Op.create n a p j => (createNewChannel m n a p j).2
  | Op.remove channelId => (removeChannel m channelId).2

/-- The registry after a sequence of calls, first call first. -/
def run (m : ChatChannelManager) (ops : List Op) : ChatChannelManager :=
  ops.foldl step m

/-- Modelled from the spec: the states the registry may start from.  The
constructor's body is not among the sources; the specification says IDs start
at 1 and that public channels restored at startup "reserve their IDs before
the allocator is first consulted".  A start state has no freed ID, a counter
of at least 1, and every restored channel under an ID from 1 up to, but not
including, the counter. -/
def Startup (m : ChatChannelManager) : Prop :=
  m.mChannelsNoLongerUsed = [] ∧ 1 ≤ m.mNextChannelId ∧
    ∀ e ∈ m.mChatChannels, 1 ≤ e.1 ∧ e.1 < m.mNextChannelId

/-- The allocator invariant: the counter is at least 1; the freed IDs are
pairwise distinct and none of them is live; and the live IDs and the freed IDs
lie from 1 up to, but not including, the counter. -/
def Inv (m : ChatChannelManager) : Prop :=
  1 ≤ m.mNextChannelId ∧
  m.mChannelsNoLongerUsed.Nodup ∧
  (∀ id ∈ m.mChannelsNoLongerUsed, mapFind m.mChatChannels id = none) ∧
  (∀ k, (mapFind m.mChatChannels k).isSome = true → 1 ≤ k ∧ k < m.mNextChannelId) ∧
  (∀ id ∈ m.mChannelsNoLongerUsed, 1 ≤ id ∧ id < m.mNextChannelId)

/-- The IDs returned by the `createNewChannel` calls of a sequence of calls,
first call first. -/
def returnedIds : ChatChannelManager → List Op → List Int
  | _, [] => []
  | m, Op.create n a p j :: rest =>
    (createNewChannel m n a p j).1 :: returnedIds (createNewChannel m n a p j).2 rest
  | m, Op.remove channelId :: rest => returnedIds (removeChannel m channelId).2 rest

/-- The registry after `tryNewPublicChannel` has been called with each name of
a list in turn. -/
def tryAll (m : ChatChannelManager) (names : List String) : ChatChannelManager :=
  names.foldl (fun s name => (tryNewPublicChannel s name).2) m

/-- The names of the live channels, in map order. -/
def liveNames (m : ChatChannelManager) : List String :=
  m.mChatChannels.map (fun e => e.2.name)

end ChatChannelManager

/-! ## The DAL storage (`src/account-server/dalstorage.hpp`) -/

/-- Modelled from the spec: a row of the characters table ("keyed by ID with a
foreign key to Account ID and a unique index on name"); `CharacterData` is
declared in `account-server/characterdata.hpp`, not among the sources. -/
structure CharacterRow where
  id : Int
  accountId : Int
  name : String
deriving DecidableEq, Repr

/-- Modelled from the spec: a row of the accounts table ("keyed by ID with
unique indexes on username and email"). -/
structure AccountRow where
  id : Int
  username : String
  password : String
  email : String
  level : Nat
deriving DecidableEq, Repr

/-- Modelled from the spec: an in-memory account instance (the class behind
`AccountPtr` is not among the sources): ID, username, password, email,
permission level and the owned characters. -/
structure Account where
  id : Int
  username : String
  password : String
  email : String
  level : Nat
  characters : List CharacterRow
deriving DecidableEq, Repr

/-- Modelled from the spec: the tables reached through `mDb`
(`dal/dataprovider.h` is not among the sources): account rows, character
rows, the rows of the persisted public channels keyed by channel ID, and the
last keys the store assigned to an account and to a character. -/
structure DataProvider where
  accounts : List AccountRow
  characters : List CharacterRow
  channels : List (Int × ChatChannel)
  lastAccountId : Int
  lastCharacterId : Int
deriving DecidableEq, Repr

/-- The storage engine: the data provider `mDb` of `DALStorage`, and, modelled
from the spec, the identity cache of accounts "keyed by ID" (held by the base
class `Storage`, `account-server/storage.hpp`, not among the sources).  An
`AccountPtr` is the index of an instance in `instances`; the null pointer is
`none`. -/
structure DALStorage where
  mDb : DataProvider
  mAccounts : List (Int × Nat)
  instances : List Account
deriving DecidableEq, Repr

/-- A mutation of the persisted channel table issued by `updateChannels`. -/
inductive Mutation where
  | insert (channelId : Int) (channel : ChatChannel)
  | delete (channelId : Int)
  | update (channelId : Int) (channel : ChatChannel)
deriving DecidableEq, Repr

/-- The channel ID a mutation is about. -/
def Mutation.channelId : Mutation → Int
  | Mutation.insert k _ => k
  | Mutation.delete k => k
  | Mutation.update k _ => k

/-- The effect of one mutation on the rows of the channel table. -/
def applyMutation (table : List (Int × ChatChannel)) : Mutation → List (Int × ChatChannel)
  | Mutation.insert k c => table ++ [(k, c)]
  | Mutation.delete k => table.filter (fun row => decide (row.1 ≠ k))
  | Mutation.update k c => table.map (fun row => if row.1 = k then (k, c) else row)

/-- The IDs of the rows of the channel table that have no channel in memory. -/
def staleIds (table channelList : List (Int × ChatChannel)) : List Int :=
  (table.filter (fun row => (mapFind channelList row.1).isNone)).map Prod.fst

/-- What is issued for one channel in memory: an insert when the table has no
row under its ID, an update when the row differs, nothing when the row is
equal. -/
def entryMutation (table : List (Int × ChatChannel)) (e : Int × ChatChannel) :
    Option Mutation :=
  match mapFind table e.1 with
  | none => some (Mutation.insert e.1 e.2)
  | some row => if row = e.2 then none else some (Mutation.update e.1 e.2)

/-- Modelled from the spec: the reconciliation computed by `updateChannels`.
"rows present in memory but not in the store are inserted, rows present in
the store but absent from memory are deleted, rows present in both are
updated if changed." -/
def channelDiff (table channelList : List (Int × ChatChannel)) : List Mutation :=
  (staleIds table channelList).map Mutation.delete ++
    channelList.filterMap (entryMutation table)

namespace DALStorage

/-- Modelled from the spec: `open()` on a given backing store, body not among
the sources: connected, nothing cached yet. -/
def openStorage (db : DataProvider) : DALStorage :=
  { mDb := db, mAccounts := [], instances := [] }

/-- Modelled from the spec: `getAccountBySQL`, declared in the header, body
not among the sources; the query is the row selection it stands for.  "If an
in-memory instance for that ID is already cached, return it (the same shared
instance, not a copy); otherwise query the store, construct the instance
(loading its characters), register it in the identity cache keyed by ID, and
return it.  Returns a null/empty result if no matching row exists." -/
def getAccountBySQL (s : DALStorage) (query : AccountRow → Bool) : Option Nat × DALStorage :=
  match s.mDb.accounts.find? query with
  | none => (none, s)
  | some row =>
    match mapFind s.mAccounts row.id with
    | some handle => (some handle, s)
    | none =>
      let account : Account :=
        { id := row.id, username := row.username, password := row.password,
          email := row.email, level := row.level,
          characters := s.mDb.characters.filter (fun c => decide (c.accountId = row.id)) }
      (some s.instances.length,
        { s with mAccounts := mapSet s.mAccounts row.id s.instances.length,
                 instances := s.instances ++ [account] })

/-- Modelled from the spec: `getAccount(userName)`, declared in the header,
body not among the sources: the account whose row carries the user name. -/
def getAccount (s : DALStorage) (userName : String) : Option Nat × DALStorage :=
  getAccountBySQL s (fun row => decide (row.username = userName))

/-- Modelled from the spec: `getAccountByID(accountID)`, declared in the
header, body not among the sources: the account whose row carries the ID. -/
def getAccountByID (s : DALStorage) (accountID : Int) : Option Nat × DALStorage :=
  getAccountBySQL s (fun row => decide (row.id = accountID))

/-- Modelled from the spec: `doesEmailAddressExist(email)`, declared in the
header, body not among the sources: "must reflect committed state", so the
account rows of the store are searched. -/
def doesEmailAddressExist (s : DALStorage) (email : String) : Bool :=
  s.mDb.accounts.any (fun row => decide (row.email = email))

/-- Whether an account row of the store carries the user name. -/
def doesUserNameExist (s : DALStorage) (userName : String) : Bool :=
  s.mDb.accounts.any (fun row => decide (row.username = userName))

/-- The character rows written for a new account: the store assigns the keys
following `lastCharacterId`, and every row refers to the account. -/
def newCharacterRows (lastCharacterId accountId : Int) :
    List CharacterRow → List CharacterRow
  | [] => []
  | c :: rest =>
    { id := lastCharacterId + 1, accountId := accountId, name := c.name } ::
      newCharacterRows (lastCharacterId + 1) accountId rest

/-- Modelled from the spec: `addAccount(account)`, declared in the header
(returning `void`), body not among the sources; the flag tells whether the
call succeeded.  "insert a brand-new account (and its characters) as one
logical unit; on success the account's ID field is populated from the
store-assigned key and the instance is registered in the cache.  Fails if the
username or email already exists (checked before insert)." -/
def addAccount (s : DALStorage) (account : Account) : Bool × DALStorage :=
  if doesUserNameExist s account.username || doesEmailAddressExist s account.email then
    (false, s)
  else
    let accountId := s.mDb.lastAccountId + 1
    let row : AccountRow :=
      { id := accountId, username := account.username, password := account.password,
        email := account.email, level := account.level }
    let rows := newCharacterRows s.mDb.lastCharacterId accountId account.characters
    let db : DataProvider :=
      { s.mDb with
        accounts := s.mDb.accounts ++ [row],
        characters := s.mDb.characters ++ rows,
        lastAccountId := accountId,
        lastCharacterId := s.mDb.lastCharacterId + rows.length }
    let stored : Account := { account with id := accountId, characters := rows }
    (true, { mDb := db, mAccounts := mapSet s.mAccounts accountId s.instances.length,
             instances := s.instances ++ [stored] })

/-- Modelled from the spec: `getChannelList()`, declared in the header, body
not among the sources: "loads all persisted public channels into a mapping
keyed by channel ID". -/
def getChannelList (s : DALStorage) : List (Int × ChatChannel) :=
  s.mDb.channels.foldl (fun acc row => mapInsert acc row.1 row.2) []

/-- Modelled from the spec: `updateChannels(channelList)`, declared in the
header, body not among the sources: the mutations of `channelDiff` are issued
against the channel table one after the other.  The result carries the
mutations issued. -/
def updateChannels (s : DALStorage) (channelList : List (Int × ChatChannel)) :
    List Mutation × DALStorage :=
  (channelDiff s.mDb.channels channelList,
    { s with mDb := { s.mDb with
        channels := (channelDiff s.mDb.channels channelList).foldl applyMutation
          s.mDb.channels } })

/-- A call on the account side of the storage engine. -/
inductive AccountOp where
  | getAccount (userName : String)
  | getAccountByID (accountID : Int)
  | addAccount (account : Account)
deriving DecidableEq, Repr

/-- The storage engine after one call. -/
def stepAccount (s : DALStorage) : AccountOp → DALStorage
  | AccountOp.getAccount u => (getAccount s u).2
  | AccountOp.getAccountByID k => (getAccountByID s k).2
  | AccountOp.addAccount a => (addAccount s a).2

/-- The storage engine after a sequence of calls, first call first. -/
def runAccount (s : DALStorage) (ops : List AccountOp) : DALStorage :=
  ops.foldl stepAccount s

/-- The invariant of the identity cache: the cache is a map keyed by account
ID, and every entry points at an instance that carries that ID. -/
def CacheInv (s : DALStorage) : Prop :=
  mapSorted s.mAccounts ∧
  ∀ e ∈ s.mAccounts, ∃ a, s.instances[e.2]? = some a ∧ a.id = e.1

end DALStorage

/-! ## Constants of `src/defines.h` -/

/-! ### Account levels -/

/-- This user is currently banned. -/
def AL_BANNED : Nat := 0
/-- User has regular rights. -/
def AL_PLAYER : Nat := 1
/-- User can perform testing tasks. -/
def AL_TESTER : Nat := 2
/-- User is a developer and can perform dev tasks. -/
def AL_DEV : Nat := 4
/-- User is a moderator and can perform mod tasks. -/
def AL_GM : Nat := 8
/-- User can perform administrator tasks. -/
def AL_ADMIN : Nat := 128

/-- The five level flags other than `AL_BANNED`, in the order of the enum. -/
def accountLevelFlags : List Nat := [AL_PLAYER, AL_TESTER, AL_DEV, AL_GM, AL_ADMIN]

/-! ### Guild member permissions -/

/-- Members with NONE cannot invite users or set permissions. -/
def GAL_NONE : Nat := 0
/-- Members with TOPIC_CHANGE can change the guild channel topic. -/
def GAL_TOPIC_CHANGE : Nat := 1
/-- Members with INVITE can invite other users. -/
def GAL_INVITE : Nat := 2
/-- Members with KICK can remove other users. -/
def GAL_KICK : Nat := 4
/-- Members with OWNER can invite users and set permissions. -/
def GAL_OWNER : Nat := 255

/-! ### Message IDs -/

/-- The enumerators of the message enumeration before `XXMSG_INVALID`, each
with its value, in the order of the enum. -/
def messageIds : List (String × Nat) :=
  [
    ("PAMSG_REGISTER", 0x0000),
    ("APMSG_REGISTER_RESPONSE", 0x0002),
    ("PAMSG_UNREGISTER", 0x0003),
    ("APMSG_UNREGISTER_RESPONSE", 0x0004),
    ("PAMSG_LOGIN", 0x0010),
    ("APMSG_LOGIN_RESPONSE", 0x0012),
    ("PAMSG_LOGOUT", 0x0013),
    ("APMSG_LOGOUT_RESPONSE", 0x0014),
    ("PAMSG_CHAR_CREATE", 0x0020),
    ("APMSG_CHAR_CREATE_RESPONSE", 0x0021),
    ("PAMSG_CHAR_DELETE", 0x0022),
    ("APMSG_CHAR_DELETE_RESPONSE", 0x0023),
    ("APMSG_CHAR_INFO", 0x0024),
    ("PAMSG_CHAR_SELECT", 0x0026),
    ("APMSG_CHAR_SELECT_RESPONSE", 0x0027),
    ("PAMSG_EMAIL_CHANGE", 0x0030),
    ("APMSG_EMAIL_CHANGE_RESPONSE", 0x0031),
    ("PAMSG_PASSWORD_CHANGE", 0x0034),
    ("APMSG_PASSWORD_CHANGE_RESPONSE", 0x0035),
    ("PGMSG_CONNECT", 0x0050),
    ("GPMSG_CONNECT_RESPONSE", 0x0051),
    ("PCMSG_CONNECT", 0x0053),
    ("CPMSG_CONNECT_RESPONSE", 0x0054),
    ("PGMSG_DISCONNECT", 0x0060),
    ("GPMSG_DISCONNECT_RESPONSE", 0x0061),
    ("PCMSG_DISCONNECT", 0x0063),
    ("CPMSG_DISCONNECT_RESPONSE", 0x0064),
    ("PAMSG_RECONNECT", 0x0065),
    ("APMSG_RECONNECT_RESPONSE", 0x0066),
    ("GPMSG_ACCOUNT_SERVER_LOST", 0x0067),
    ("GPMSG_PLAYER_MAP_CHANGE", 0x0100),
    ("GPMSG_PLAYER_SERVER_CHANGE", 0x0101),
    ("PGMSG_PICKUP", 0x0110),
    ("PGMSG_DROP", 0x0111),
    ("PGMSG_EQUIP", 0x0112),
    ("PGMSG_UNEQUIP", 0x0113),
    ("PGMSG_MOVE_ITEM", 0x0114),
    ("GPMSG_INVENTORY", 0x0120),
    ("GPMSG_INVENTORY_FULL", 0x0121),
    ("GPMSG_PLAYER_ATTRIBUTE_CHANGE", 0x0130),
    ("GPMSG_PLAYER_EXP_CHANGE", 0x0140),
    ("GPMSG_LEVELUP", 0x0150),
    ("GPMSG_LEVEL_PROGRESS", 0x0151),
    ("PGMSG_RAISE_ATTRIBUTE", 0x0160),
    ("GPMSG_RAISE_ATTRIBUTE_RESPONSE", 0x0161),
    ("PGMSG_LOWER_ATTRIBUTE", 0x0170),
    ("GPMSG_LOWER_ATTRIBUTE_RESPONSE", 0x0171),
    ("PGMSG_RESPAWN", 0x0180),
    ("GPMSG_BEING_ENTER", 0x0200),
    ("GPMSG_BEING_LEAVE", 0x0201),
    ("GPMSG_ITEM_APPEAR", 0x0202),
    ("GPMSG_BEING_LOOKS_CHANGE", 0x0210),
    ("PGMSG_WALK", 0x0260),
    ("PGMSG_ACTION_CHANGE", 0x0270),
    ("GPMSG_BEING_ACTION_CHANGE", 0x0271),
    ("PGMSG_DIRECTION_CHANGE", 0x0272),
    ("GPMSG_BEING_DIR_CHANGE", 0x0273),
    ("GPMSG_BEING_HEALTH_CHANGE", 0x0274),
    ("GPMSG_BEINGS_MOVE", 0x0280),
    ("GPMSG_ITEMS", 0x0281),
    ("PGMSG_ATTACK", 0x0290),
    ("GPMSG_BEING_ATTACK", 0x0291),
    ("PGMSG_USE_SPECIAL", 0x0292),
    ("GPMSG_SPECIAL_STATUS", 0x0293),
    ("PGMSG_SAY", 0x02A0),
    ("GPMSG_SAY", 0x02A1),
    ("GPMSG_NPC_CHOICE", 0x02B0),
    ("GPMSG_NPC_MESSAGE", 0x02B1),
    ("PGMSG_NPC_TALK", 0x02B2),
    ("PGMSG_NPC_TALK_NEXT", 0x02B3),
    ("PGMSG_NPC_SELECT", 0x02B4),
    ("GPMSG_NPC_BUY", 0x02B5),
    ("GPMSG_NPC_SELL", 0x02B6),
    ("PGMSG_NPC_BUYSELL", 0x02B7),
    ("GPMSG_NPC_ERROR", 0x02B8),
    ("GPMSG_NPC_CLOSE", 0x02B9),
    ("GPMSG_NPC_POST", 0x02D0),
    ("PGMSG_NPC_POST_SEND", 0x02D1),
    ("GPMSG_NPC_POST_GET", 0x02D2),
    ("PGMSG_NPC_NUMBER", 0x02D3),
    ("PGMSG_NPC_STRING", 0x02D4),
    ("GPMSG_NPC_NUMBER", 0x02D5),
    ("GPMSG_NPC_STRING", 0x02D6),
    ("PGMSG_TRADE_REQUEST", 0x02C0),
    ("GPMSG_TRADE_REQUEST", 0x02C1),
    ("GPMSG_TRADE_START", 0x02C2),
    ("GPMSG_TRADE_COMPLETE", 0x02C3),
    ("PGMSG_TRADE_CANCEL", 0x02C4),
    ("GPMSG_TRADE_CANCEL", 0x02C5),
    ("PGMSG_TRADE_AGREED", 0x02C6),
    ("GPMSG_TRADE_AGREED", 0x02C7),
    ("PGMSG_TRADE_CONFIRM", 0x02C8),
    ("GPMSG_TRADE_CONFIRM", 0x02C9),
    ("PGMSG_TRADE_ADD_ITEM", 0x02CA),
    ("GPMSG_TRADE_ADD_ITEM", 0x02CB),
    ("PGMSG_TRADE_SET_MONEY", 0x02CC),
    ("GPMSG_TRADE_SET_MONEY", 0x02CD),
    ("GPMSG_TRADE_BOTH_CONFIRM", 0x02CE),
    ("PGMSG_USE_ITEM", 0x0300),
    ("GPMSG_USE_RESPONSE", 0x0301),
    ("GPMSG_BEINGS_DAMAGE", 0x0310),
    ("GPMSG_CREATE_EFFECT_POS", 0x0320),
    ("GPMSG_CREATE_EFFECT_BEING", 0x0321),
    ("PCMSG_GUILD_CREATE", 0x0350),
    ("CPMSG_GUILD_CREATE_RESPONSE", 0x0351),
    ("PCMSG_GUILD_INVITE", 0x0352),
    ("CPMSG_GUILD_INVITE_RESPONSE", 0x0353),
    ("PCMSG_GUILD_ACCEPT", 0x0354),
    ("CPMSG_GUILD_ACCEPT_RESPONSE", 0x0355),
    ("PCMSG_GUILD_GET_MEMBERS", 0x0356),
    ("CPMSG_GUILD_GET_MEMBERS_RESPONSE", 0x0357),
    ("CPMSG_GUILD_UPDATE_LIST", 0x0358),
    ("PCMSG_GUILD_QUIT", 0x0360),
    ("CPMSG_GUILD_QUIT_RESPONSE", 0x0361),
    ("PCMSG_GUILD_PROMOTE_MEMBER", 0x0365),
    ("CPMSG_GUILD_PROMOTE_MEMBER_RESPONSE", 0x0366),
    ("PCMSG_GUILD_KICK_MEMBER", 0x0370),
    ("CPMSG_GUILD_KICK_MEMBER_RESPONSE", 0x0371),
    ("CPMSG_GUILD_INVITED", 0x0388),
    ("CPMSG_GUILD_REJOIN", 0x0389),
    ("PCMSG_PARTY_INVITE", 0x03A0),
    ("CPMSG_PARTY_INVITE_RESPONSE", 0x03A1),
    ("CPMSG_PARTY_INVITED", 0x03A2),
    ("PCMSG_PARTY_ACCEPT_INVITE", 0x03A5),
    ("CPMSG_PARTY_ACCEPT_INVITE_RESPONSE", 0x03A6),
    ("PCMSG_PARTY_REJECT_INVITE", 0x03A7),
    ("CPMSG_PARTY_REJECTED", 0x03A8),
    ("PCMSG_PARTY_QUIT", 0x03AA),
    ("CPMSG_PARTY_QUIT_RESPONSE", 0x03AB),
    ("CPMSG_PARTY_NEW_MEMBER", 0x03B0),
    ("CPMSG_PARTY_MEMBER_LEFT", 0x03B1),
    ("CPMSG_ERROR", 0x0401),
    ("CPMSG_ANNOUNCEMENT", 0x0402),
    ("CPMSG_PRIVMSG", 0x0403),
    ("CPMSG_PUBMSG", 0x0404),
    ("PCMSG_CHAT", 0x0410),
    ("PCMSG_ANNOUNCE", 0x0411),
    ("PCMSG_PRIVMSG", 0x0412),
    ("PCMSG_WHO", 0x0415),
    ("CPMSG_WHO_RESPONSE", 0x0416),
    ("CPMSG_CHANNEL_EVENT", 0x0430),
    ("PCMSG_ENTER_CHANNEL", 0x0440),
    ("CPMSG_ENTER_CHANNEL_RESPONSE", 0x0441),
    ("PCMSG_QUIT_CHANNEL", 0x0443),
    ("CPMSG_QUIT_CHANNEL_RESPONSE", 0x0444),
    ("PCMSG_LIST_CHANNELS", 0x0445),
    ("CPMSG_LIST_CHANNELS_RESPONSE", 0x0446),
    ("PCMSG_LIST_CHANNELUSERS", 0x0460),
    ("CPMSG_LIST_CHANNELUSERS_RESPONSE", 0x0461),
    ("PCMSG_TOPIC_CHANGE", 0x0462),
    ("PCMSG_USER_MODE", 0x0465),
    ("PCMSG_KICK_USER", 0x0466),
    ("GAMSG_REGISTER", 0x0500),
    ("AGMSG_REGISTER_RESPONSE", 0x0501),
    ("AGMSG_ACTIVE_MAP", 0x0502),
    ("AGMSG_PLAYER_ENTER", 0x0510),
    ("GAMSG_PLAYER_DATA", 0x0520),
    ("GAMSG_REDIRECT", 0x0530),
    ("AGMSG_REDIRECT_RESPONSE", 0x0531),
    ("GAMSG_PLAYER_RECONNECT", 0x0532),
    ("GAMSG_PLAYER_SYNC", 0x0533),
    ("GAMSG_SET_QUEST", 0x0540),
    ("GAMSG_GET_QUEST", 0x0541),
    ("AGMSG_GET_QUEST_RESPONSE", 0x0542),
    ("GAMSG_BAN_PLAYER", 0x0550),
    ("GAMSG_CHANGE_PLAYER_LEVEL", 0x0555),
    ("GAMSG_CHANGE_ACCOUNT_LEVEL", 0x0556),
    ("GAMSG_STATISTICS", 0x0560),
    ("CGMSG_CHANGED_PARTY", 0x0590),
    ("GCMSG_REQUEST_POST", 0x05A0),
    ("CGMSG_POST_RESPONSE", 0x05A1),
    ("GCMSG_STORE_POST", 0x05A5),
    ("CGMSG_STORE_POST_RESPONSE", 0x05A6),
    ("GAMSG_TRANSACTION", 0x0600)
  ]

/-- The value that stands for no message. -/
def XXMSG_INVALID : Nat := 0x7FFF

/-- All the enumerators of the message enumeration, `XXMSG_INVALID` last. -/
def allMessageIds : List (String × Nat) := messageIds ++ [("XXMSG_INVALID", XXMSG_INVALID)]

/-! ### Return values -/

/-- Everything is fine. -/
def ERRMSG_OK : Nat := 0
/-- The action failed. -/
def ERRMSG_FAILURE : Nat := ERRMSG_OK + 1
/-- The user is not yet logged. -/
def ERRMSG_NO_LOGIN : Nat := ERRMSG_FAILURE + 1
/-- The user needs a character. -/
def ERRMSG_NO_CHARACTER_SELECTED : Nat := ERRMSG_NO_LOGIN + 1
/-- The user is not privileged. -/
def ERRMSG_INSUFFICIENT_RIGHTS : Nat := ERRMSG_NO_CHARACTER_SELECTED + 1
/-- Part of the received message was invalid. -/
def ERRMSG_INVALID_ARGUMENT : Nat := ERRMSG_INSUFFICIENT_RIGHTS + 1
/-- The email address already exists. -/
def ERRMSG_EMAIL_ALREADY_EXISTS : Nat := ERRMSG_INVALID_ARGUMENT + 1
/-- The name used was already taken. -/
def ERRMSG_ALREADY_TAKEN : Nat := ERRMSG_EMAIL_ALREADY_EXISTS + 1
/-- The server is overloaded. -/
def ERRMSG_SERVER_FULL : Nat := ERRMSG_ALREADY_TAKEN + 1
/-- The account server connection is lost. -/
def ERRMSG_SERVER_NON_RESPONDING : Nat := ERRMSG_SERVER_FULL + 1
/-- Data failed to arrive in due time. -/
def ERRMSG_TIME_OUT : Nat := ERRMSG_SERVER_NON_RESPONDING + 1
/-- Limit reached. -/
def ERRMSG_LIMIT_REACHED : Nat := ERRMSG_TIME_OUT + 1

/-- The generic return values, in the order of the enum. -/
def genericCodes : List Nat :=
  [ERRMSG_OK, ERRMSG_FAILURE, ERRMSG_NO_LOGIN, ERRMSG_NO_CHARACTER_SELECTED,
    ERRMSG_INSUFFICIENT_RIGHTS, ERRMSG_INVALID_ARGUMENT, ERRMSG_EMAIL_ALREADY_EXISTS,
    ERRMSG_ALREADY_TAKEN, ERRMSG_SERVER_FULL, ERRMSG_SERVER_NON_RESPONDING, ERRMSG_TIME_OUT,
    ERRMSG_LIMIT_REACHED]

/-- The user is using an incompatible protocol. -/
def LOGIN_INVALID_VERSION : Nat := 0x40
/-- The user tried logging in too fast. -/
def LOGIN_INVALID_TIME : Nat := 0x50
/-- The user is currently banned. -/
def LOGIN_BANNED : Nat := LOGIN_INVALID_TIME + 1

/-- The user is using an incompatible protocol. -/
def REGISTER_INVALID_VERSION : Nat := 0x40
/-- There already is an account with this username. -/
def REGISTER_EXISTS_USERNAME : Nat := REGISTER_INVALID_VERSION + 1
/-- There already is an account with this email address. -/
def REGISTER_EXISTS_EMAIL : Nat := REGISTER_EXISTS_USERNAME + 1

/-- The account register specific return values, in the order of the enum. -/
def registerCodes : List Nat :=
  [REGISTER_INVALID_VERSION, REGISTER_EXISTS_USERNAME, REGISTER_EXISTS_EMAIL]

/-- Character creation: invalid hair style. -/
def CREATE_INVALID_HAIRSTYLE : Nat := 0x40
/-- Character creation: invalid hair color. -/
def CREATE_INVALID_HAIRCOLOR : Nat := CREATE_INVALID_HAIRSTYLE + 1
/-- Character creation: invalid gender. -/
def CREATE_INVALID_GENDER : Nat := CREATE_INVALID_HAIRCOLOR + 1
/-- Character creation: attributes too high. -/
def CREATE_ATTRIBUTES_TOO_HIGH : Nat := CREATE_INVALID_GENDER + 1
/-- Character creation: attributes too low. -/
def CREATE_ATTRIBUTES_TOO_LOW : Nat := CREATE_ATTRIBUTES_TOO_HIGH + 1
/-- Character creation: an attribute is zero. -/
def CREATE_ATTRIBUTES_EQUAL_TO_ZERO : Nat := CREATE_ATTRIBUTES_TOO_LOW + 1
/-- Character creation: the name exists. -/
def CREATE_EXISTS_NAME : Nat := CREATE_ATTRIBUTES_EQUAL_TO_ZERO + 1
/-- Character creation: the account has too many characters. -/
def CREATE_TOO_MUCH_CHARACTERS : Nat := CREATE_EXISTS_NAME + 1

/-- The character creation specific return values, in the order of the enum. -/
def createCodes : List Nat :=
  [CREATE_INVALID_HAIRSTYLE, CREATE_INVALID_HAIRCOLOR, CREATE_INVALID_GENDER,
    CREATE_ATTRIBUTES_TOO_HIGH, CREATE_ATTRIBUTES_TOO_LOW, CREATE_ATTRIBUTES_EQUAL_TO_ZERO,
    CREATE_EXISTS_NAME, CREATE_TOO_MUCH_CHARACTERS]

/-- Attribute modification succeeded: the generic `ERRMSG_OK`. -/
def ATTRIBMOD_OK : Nat := ERRMSG_OK
/-- Attribute modification: invalid attribute. -/
def ATTRIBMOD_INVALID_ATTRIBUTE : Nat := 0x40
/-- Attribute modification: no points left. -/
def ATTRIBMOD_NO_POINTS_LEFT : Nat := ATTRIBMOD_INVALID_ATTRIBUTE + 1
/-- Attribute modification: denied. -/
def ATTRIBMOD_DENIED : Nat := ATTRIBMOD_NO_POINTS_LEFT + 1

/-- Email change: the email address exists. -/
def EMAILCHG_EXISTS_EMAIL : Nat := 0x40

/-- The email change specific return values. -/
def emailchgCodes : List Nat := [EMAILCHG_EXISTS_EMAIL]

/-- Chat: bad words used. -/
def CHAT_USING_BAD_WORDS : Nat := 0x40
/-- Chat: unhandled command. -/
def CHAT_UNHANDLED_COMMAND : Nat := CHAT_USING_BAD_WORDS + 1

/-! ### Being states -/

/-- Being state: poisoned. -/
def STATE_POISONED : Nat := 1
/-- Being state: stoned. -/
def STATE_STONED : Nat := 2
/-- Being state: stunned. -/
def STATE_STUNNED : Nat := 4
/-- Being state: slowed. -/
def STATE_SLOWED : Nat := 8
/-- Being state: tired. -/
def STATE_TIRED : Nat := 16
/-- Being state: mad. -/
def STATE_MAD : Nat := 32
/-- Being state: berserk. -/
def STATE_BERSERK : Nat := 64
/-- Being state: hasted. -/
def STATE_HASTED : Nat := 128
/-- Being state: floating. -/
def STATE_FLOATING : Nat := 256

/-- The enumerators of `BeingState`, in the order of the enum. -/
def beingStates : List Nat :=
  [STATE_POISONED, STATE_STONED, STATE_STUNNED, STATE_SLOWED, STATE_TIRED, STATE_MAD,
    STATE_BERSERK, STATE_HASTED, STATE_FLOATING]

/-- The bitmask of a collection of states: their bitwise OR. -/
def stateMask : List Nat → Nat
  | [] => 0
  | s :: rest => s ||| stateMask rest

/-! ### Elements -/

/-- Element: neutral. -/
def ELEMENT_NEUTRAL : Nat := 0
/-- Element: fire. -/
def ELEMENT_FIRE : Nat := ELEMENT_NEUTRAL + 1
/-- Element: water. -/
def ELEMENT_WATER : Nat := ELEMENT_FIRE + 1
/-- Element: earth. -/
def ELEMENT_EARTH : Nat := ELEMENT_WATER + 1
/-- Element: air. -/
def ELEMENT_AIR : Nat := ELEMENT_EARTH + 1
/-- Element: lightning. -/
def ELEMENT_LIGHTNING : Nat := ELEMENT_AIR + 1
/-- Element: metal. -/
def ELEMENT_METAL : Nat := ELEMENT_LIGHTNING + 1
/-- Element: wood. -/
def ELEMENT_WOOD : Nat := ELEMENT_METAL + 1
/-- Element: ice. -/
def ELEMENT_ICE : Nat := ELEMENT_WOOD + 1
/-- The first value that is no element. -/
def ELEMENT_ILLEGAL : Nat := ELEMENT_ICE + 1

/-- The enumerators of `Element` before `ELEMENT_ILLEGAL`, each with the part
of its name after `ELEMENT_`, in the order of the enum. -/
def elements : List (String × Nat) :=
  [("NEUTRAL", ELEMENT_NEUTRAL), ("FIRE", ELEMENT_FIRE), ("WATER", ELEMENT_WATER),
    ("EARTH", ELEMENT_EARTH), ("AIR", ELEMENT_AIR), ("LIGHTNING", ELEMENT_LIGHTNING),
    ("METAL", ELEMENT_METAL), ("WOOD", ELEMENT_WOOD), ("ICE", ELEMENT_ICE)]

/-! ### Attributes of beings and characters -/

/-- Start of the combat attributes. -/
def BASE_ATTR_BEGIN : Nat := 0
/-- Physical attack power, minimum. -/
def BASE_ATTR_PHY_ATK_MIN : Nat := BASE_ATTR_BEGIN
/-- Physical attack power, delta. -/
def BASE_ATTR_PHY_ATK_DELTA : Nat := BASE_ATTR_PHY_ATK_MIN + 1
/-- Magical attack power. -/
def BASE_ATTR_MAG_ATK : Nat := BASE_ATTR_PHY_ATK_DELTA + 1
/-- Resistance to physical damage. -/
def BASE_ATTR_PHY_RES : Nat := BASE_ATTR_MAG_ATK + 1
/-- Resistance to magical damage. -/
def BASE_ATTR_MAG_RES : Nat := BASE_ATTR_PHY_RES + 1
/-- Ability to avoid hits. -/
def BASE_ATTR_EVADE : Nat := BASE_ATTR_MAG_RES + 1
/-- Ability to hit stuff. -/
def BASE_ATTR_HIT : Nat := BASE_ATTR_EVADE + 1
/-- Hit points. -/
def BASE_ATTR_HP : Nat := BASE_ATTR_HIT + 1
/-- Number of HP regenerated every 10 game ticks. -/
def BASE_ATTR_HP_REGEN : Nat := BASE_ATTR_HP + 1
/-- End of the combat attributes. -/
def BASE_ATTR_END : Nat := BASE_ATTR_HP_REGEN + 1
/-- Number of combat attributes. -/
def BASE_ATTR_NB : Nat := BASE_ATTR_END - BASE_ATTR_BEGIN

/-- Start of the elemental modifiers. -/
def BASE_ELEM_BEGIN : Nat := BASE_ATTR_END
/-- Elemental modifier: neutral. -/
def BASE_ELEM_NEUTRAL : Nat := BASE_ELEM_BEGIN
/-- Elemental modifier: fire. -/
def BASE_ELEM_FIRE : Nat := BASE_ELEM_NEUTRAL + 1
/-- Elemental modifier: water. -/
def BASE_ELEM_WATER : Nat := BASE_ELEM_FIRE + 1
/-- Elemental modifier: earth. -/
def BASE_ELEM_EARTH : Nat := BASE_ELEM_WATER + 1
/-- Elemental modifier: air. -/
def BASE_ELEM_AIR : Nat := BASE_ELEM_EARTH + 1
/-- Elemental modifier: sacred. -/
def BASE_ELEM_SACRED : Nat := BASE_ELEM_AIR + 1
/-- Elemental modifier: death. -/
def BASE_ELEM_DEATH : Nat := BASE_ELEM_SACRED + 1
/-- End of the elemental modifiers. -/
def BASE_ELEM_END : Nat := BASE_ELEM_DEATH + 1
/-- Number of elemental modifiers. -/
def BASE_ELEM_NB : Nat := BASE_ELEM_END - BASE_ELEM_BEGIN

/-- Number of attributes of a being. -/
def NB_BEING_ATTRIBUTES : Nat := BASE_ELEM_END

/-- The elemental modifiers, each with the part of its name after
`BASE_ELEM_`, in the order of the enum. -/
def elementModifiers : List (String × Nat) :=
  [("NEUTRAL", BASE_ELEM_NEUTRAL), ("FIRE", BASE_ELEM_FIRE), ("WATER", BASE_ELEM_WATER),
    ("EARTH", BASE_ELEM_EARTH), ("AIR", BASE_ELEM_AIR), ("SACRED", BASE_ELEM_SACRED),
    ("DEATH", BASE_ELEM_DEATH)]

/-- The name of the elemental modifier at an attribute index, if the index
names one. -/
def modifierNameAt (index : Nat) : Option String :=
  (elementModifiers.find? (fun e => decide (e.2 = index))).map Prod.fst

/-- Start of the character attributes. -/
def CHAR_ATTR_BEGIN : Nat := NB_BEING_ATTRIBUTES
/-- Character attribute: strength. -/
def CHAR_ATTR_STRENGTH : Nat := CHAR_ATTR_BEGIN
/-- Character attribute: agility. -/
def CHAR_ATTR_AGILITY : Nat := CHAR_ATTR_STRENGTH + 1
/-- Character attribute: dexterity. -/
def CHAR_ATTR_DEXTERITY : Nat := CHAR_ATTR_AGILITY + 1
/-- Character attribute: vitality. -/
def CHAR_ATTR_VITALITY : Nat := CHAR_ATTR_DEXTERITY + 1
/-- Character attribute: intelligence. -/
def CHAR_ATTR_INTELLIGENCE : Nat := CHAR_ATTR_VITALITY + 1
/-- Character attribute: willpower. -/
def CHAR_ATTR_WILLPOWER : Nat := CHAR_ATTR_INTELLIGENCE + 1
/-- End of the character attributes. -/
def CHAR_ATTR_END : Nat := CHAR_ATTR_WILLPOWER + 1
/-- Number of character attributes. -/
def CHAR_ATTR_NB : Nat := CHAR_ATTR_END - CHAR_ATTR_BEGIN

/-- The number of stats in the payload of `PAMSG_CHAR_CREATE` and of
`APMSG_CHAR_INFO`: "W*6 stats". -/
def charStatsInMessage : Nat := 6

/-! ## Incoming messages (`src/net/messagein.hpp`) -/

/-- The value of a 32-bit `int` holding the mathematical integer `x`. -/
def toInt32 (x : Int) : Int := (x + 2147483648) % 4294967296 - 2147483648

/-- The data members of `MessageIn`: the packet data, and the three
`unsigned short` fields `mLength`, `mId` and `mPos`. -/
structure MessageIn where
  mData : List Nat
  mLength : Nat
  mId : Nat
  mPos : Nat
deriving DecidableEq, Repr

namespace MessageIn

/-- The fields of type `unsigned short` hold 16-bit values. -/
def Valid (m : MessageIn) : Prop :=
  m.mLength < 65536 ∧ m.mId < 65536 ∧ m.mPos < 65536

/-- The inline `getId`: `return mId;`, an `unsigned short` returned as `int`. -/
def getId (m : MessageIn) : Int := toInt32 (m.mId : Int)

/-- The inline `getUnreadLength`: `return mLength - mPos;`.  Both operands are
`unsigned short` and are promoted to `int` before the subtraction. -/
def getUnreadLength (m : MessageIn) : Int :=
  toInt32 ((m.mLength : Int) - (m.mPos : Int))

end MessageIn

/-! ## Channel keys in the storage (`std::map<short, ChatChannel>`) -/

/-- Conversion of an `unsigned short` to `short`, the key type of the maps of
`getChannelList` and `updateChannels`: the value modulo 2^16 taken in the
range from -32768 to 32767 (the two's complement conversion; a `short` cannot
hold a value above 32767 whatever the conversion). -/
def toShort (k : Nat) : Int :=
  if k % 65536 < 32768 then ((k % 65536 : Nat) : Int) else ((k % 65536 : Nat) : Int) - 65536

/-! ## Lemmas on association-list maps -/

theorem mapFind_mapSet_self {κ α : Type} [LinearOrder κ] (m : List (κ × α)) (k : κ) (v : α) :
    mapFind (mapSet m k v) k = some v := by
  induction m with
  | nil => simp [mapSet, mapFind]
  | cons e rest ih =>
    obtain ⟨k', v'⟩ := e
    unfold mapSet
    by_cases h1 : k < k'
    · simp [h1, mapFind]
    · by_cases h2 : k = k'
      · simp [h2, mapFind]
      · have h3 : ¬ k' = k := fun h => h2 h.symm
        simp [h1, h2, h3, mapFind, ih]

theorem mapFind_mapSet_ne {κ α : Type} [LinearOrder κ] (m : List (κ × α)) (k j : κ) (v : α) (h : j ≠ k) :
    mapFind (mapSet m k v) j = mapFind m j := by
  have hk : ¬ k = j := fun e => h e.symm
  induction m with
  | nil => simp [mapSet, mapFind, hk]
  | cons e rest ih =>
    obtain ⟨k', v'⟩ := e
    unfold mapSet
    by_cases h1 : k < k'
    · simp [h1, mapFind, hk]
    · by_cases h2 : k = k'
      · subst h2
        simp [mapFind, hk]
      · simp [h1, h2, mapFind, ih]

theorem mapErase_cons_eq {κ α : Type} [LinearOrder κ] (k' : κ) (v' : α) (rest : List (κ × α)) (k : κ)
    (h : k' = k) : mapErase ((k', v') :: rest) k = mapErase rest k := by
  simp [mapErase, h]

theorem mapErase_cons_ne {κ α : Type} [LinearOrder κ] (k' : κ) (v' : α) (rest : List (κ × α)) (k : κ)
    (h : k' ≠ k) : mapErase ((k', v') :: rest) k = (k', v') :: mapErase rest k := by
  simp [mapErase, h]

theorem mapFind_mapErase_self {κ α : Type} [LinearOrder κ] (m : List (κ × α)) (k : κ) :
    mapFind (mapErase m k) k = none := by
  induction m with
  | nil => rfl
  | cons e rest ih =>
    obtain ⟨k', v'⟩ := e
    by_cases h : k' = k
    · rw [mapErase_cons_eq k' v' rest k h]
      exact ih
    · rw [mapErase_cons_ne k' v' rest k h]
      simp [mapFind, h, ih]

theorem mapFind_mapErase_ne {κ α : Type} [LinearOrder κ] (m : List (κ × α)) (k j : κ) (h : j ≠ k) :
    mapFind (mapErase m k) j = mapFind m j := by
  induction m with
  | nil => rfl
  | cons e rest ih =>
    obtain ⟨k', v'⟩ := e
    by_cases h1 : k' = k
    · have h2 : ¬ k' = j := fun e => h (e.symm.trans h1)
      rw [mapErase_cons_eq k' v' rest k h1]
      simp [mapFind, h2, ih]
    · rw [mapErase_cons_ne k' v' rest k h1]
      by_cases h2 : k' = j
      · simp [mapFind, h2]
      · simp [mapFind, h2, ih]

theorem mapFind_isSome_mem {κ α : Type} [LinearOrder κ] (m : List (κ × α)) (k : κ)
    (h : (mapFind m k).isSome = true) : ∃ e ∈ m, e.1 = k := by
  induction m with
  | nil => simp [mapFind] at h
  | cons e rest ih =>
    obtain ⟨k', v'⟩ := e
    by_cases hk : k' = k
    · exact ⟨(k', v'), List.mem_cons_self _ _, hk⟩
    · simp only [mapFind, hk, if_false] at h
      obtain ⟨e, he, hek⟩ := ih h
      exact ⟨e, List.mem_cons_of_mem _ he, hek⟩

theorem mapFind_eq_none_of_not_mem {κ α : Type} [LinearOrder κ] (m : List (κ × α)) (k : κ)
    (h : ∀ e ∈ m, e.1 ≠ k) : mapFind m k = none := by
  cases hf : mapFind m k with
  | none => rfl
  | some v =>
    have hs : (mapFind m k).isSome = true := by rw [hf]; rfl
    obtain ⟨e, he, hek⟩ := mapFind_isSome_mem m k hs
    exact absurd hek (h e he)

theorem mem_mapSet {κ α : Type} [LinearOrder κ] (m : List (κ × α)) (k : κ) (v : α)
    (e : κ × α)
    (h : e ∈ mapSet m k v) : e = (k, v) ∨ e ∈ m := by
  induction m with
  | nil =>
    simp only [mapSet, List.mem_singleton] at h
    exact Or.inl h
  | cons e' rest ih =>
    obtain ⟨k', v'⟩ := e'
    unfold mapSet at h
    by_cases h1 : k < k'
    · rw [if_pos h1] at h
      rcases List.mem_cons.mp h with h | h
      · exact Or.inl h
      · exact Or.inr h
    · rw [if_neg h1] at h
      by_cases h2 : k = k'
      · rw [if_pos h2] at h
        rcases List.mem_cons.mp h with h | h
        · exact Or.inl h
        · exact Or.inr (List.mem_cons_of_mem _ h)
      · rw [if_neg h2] at h
        rcases List.mem_cons.mp h with h | h
        · exact Or.inr (h ▸ List.mem_cons_self _ _)
        · rcases ih h with h | h
          · exact Or.inl h
          · exact Or.inr (List.mem_cons_of_mem _ h)

theorem mapFind_isSome_of_mem {κ α : Type} [LinearOrder κ] (m : List (κ × α)) (e : κ × α)
    (h : e ∈ m) : (mapFind m e.1).isSome = true := by
  induction m with
  | nil => cases h
  | cons e' rest ih =>
    obtain ⟨k', v'⟩ := e'
    by_cases hk : k' = e.1
    · simp [mapFind, hk]
    · simp only [mapFind, hk, if_false]
      rcases List.mem_cons.mp h with h | h
      · rw [h] at hk
        exact absurd rfl hk
      · exact ih h

theorem mem_mapErase {κ α : Type} [LinearOrder κ] (m : List (κ × α)) (k : κ) (e : κ × α) :
    e ∈ mapErase m k ↔ e ∈ m ∧ e.1 ≠ k := by
  unfold mapErase
  rw [List.mem_filter]
  simp

namespace ChatChannelManager

/-! ## Channel ID allocation -/

theorem nextUsable_of_ne_nil (m : ChatChannelManager) (h : m.mChannelsNoLongerUsed ≠ []) :
    m.mChannelsNoLongerUsed = (nextUsable m).1 :: (nextUsable m).2.mChannelsNoLongerUsed ∧
    (nextUsable m).2.mNextChannelId = m.mNextChannelId ∧
    (nextUsable m).2.mChatChannels = m.mChatChannels := by
  obtain ⟨live, counter, queue⟩ := m
  cases queue with
  | nil => exact absurd rfl h
  | cons q qs => exact ⟨rfl, rfl, rfl⟩

theorem nextUsable_of_nil (m : ChatChannelManager) (h : m.mChannelsNoLongerUsed = []) :
    nextUsable m = (m.mNextChannelId, { m with mNextChannelId := m.mNextChannelId + 1 }) := by
  obtain ⟨live, counter, queue⟩ := m
  simp only at h
  subst h
  rfl

theorem nextUsable_live (m : ChatChannelManager) :
    (nextUsable m).2.mChatChannels = m.mChatChannels := by
  obtain ⟨live, counter, queue⟩ := m
  cases queue <;> rfl

theorem channelExists_createNewChannel (m : ChatChannelManager) (n a p : String) (j : Bool) :
    channelExists (createNewChannel m n a p j).2 (createNewChannel m n a p j).1 = true := by
  simp [channelExists, createNewChannel, mapFind_mapSet_self]

theorem removeChannel_of_exists (m : ChatChannelManager) (id : Int)
    (h : channelExists m id = true) :
    removeChannel m id = (true, { m with
      mChatChannels := mapErase m.mChatChannels id,
      mChannelsNoLongerUsed := m.mChannelsNoLongerUsed ++ [id] }) := by
  simp only [channelExists, Option.isSome_iff_exists] at h
  obtain ⟨ch, hch⟩ := h
  simp [removeChannel, hch]

theorem removeChannel_of_not_exists (m : ChatChannelManager) (id : Int)
    (h : channelExists m id = false) : removeChannel m id = (false, m) := by
  unfold channelExists at h
  unfold removeChannel
  cases hf : mapFind m.mChatChannels id with
  | none => rfl
  | some ch => simp [hf] at h

theorem channelExists_iff_mem (m : ChatChannelManager) (id : Int) :
    channelExists m id = true ↔ ∃ c, (id, c) ∈ m.mChatChannels := by
  constructor
  · intro h
    obtain ⟨e, he, hek⟩ := mapFind_isSome_mem _ _ h
    refine ⟨e.2, ?_⟩
    rw [← hek]
    exact he
  · intro h
    obtain ⟨c, hc⟩ := h
    exact mapFind_isSome_of_mem _ (id, c) hc

theorem createNewChannel_fst (m : ChatChannelManager) (n a p : String) (j : Bool) :
    (createNewChannel m n a p j).1 = (nextUsable m).1 := rfl

theorem createNewChannel_counter (m : ChatChannelManager) (n a p : String) (j : Bool) :
    (createNewChannel m n a p j).2.mNextChannelId = (nextUsable m).2.mNextChannelId := rfl

theorem createNewChannel_queue (m : ChatChannelManager) (n a p : String) (j : Bool) :
    (createNewChannel m n a p j).2.mChannelsNoLongerUsed =
      (nextUsable m).2.mChannelsNoLongerUsed := rfl

theorem createNewChannel_live (m : ChatChannelManager) (n a p : String) (j : Bool) :
    (createNewChannel m n a p j).2.mChatChannels =
      mapSet (nextUsable m).2.mChatChannels (nextUsable m).1 ⟨n, a, p, j⟩ := rfl

/-- C1 (amended): `nextUsable` returns the oldest entry of the freed-ID queue
and removes it, leaving the counter unchanged, when the queue is non-empty,
and otherwise returns the counter and advances it by one.  After
`createNewChannel`, `removeChannel` on the returned ID succeeds and the next
`createNewChannel` takes the oldest freed ID without advancing the counter;
that ID is the one returned by the first call whenever the freed-ID queue held
at most one entry before the first call. -/
theorem nextUsable_fifo_reuse (m : ChatChannelManager) (n1 a1 p1 n2 a2 p2 : String)
    (j1 j2 : Bool) :
    (∀ id rest, m.mChannelsNoLongerUsed = id :: rest →
      nextUsable m = (id, { m with mChannelsNoLongerUsed := rest })) ∧
    (m.mChannelsNoLongerUsed = [] →
      nextUsable m = (m.mNextChannelId, { m with mNextChannelId := m.mNextChannelId + 1 })) ∧
    (removeChannel (createNewChannel m n1 a1 p1 j1).2 (createNewChannel m n1 a1 p1 j1).1).1
      = true ∧
    (createNewChannel
      (removeChannel (createNewChannel m n1 a1 p1 j1).2 (createNewChannel m n1 a1 p1 j1).1).2
      n2 a2 p2 j2).2.mNextChannelId = (createNewChannel m n1 a1 p1 j1).2.mNextChannelId ∧
    (removeChannel (createNewChannel m n1 a1 p1 j1).2
        (createNewChannel m n1 a1 p1 j1).1).2.mChannelsNoLongerUsed =
      (createNewChannel
        (removeChannel (createNewChannel m n1 a1 p1 j1).2 (createNewChannel m n1 a1 p1 j1).1).2
        n2 a2 p2 j2).1 ::
      (createNewChannel
        (removeChannel (createNewChannel m n1 a1 p1 j1).2 (createNewChannel m n1 a1 p1 j1).1).2
        n2 a2 p2 j2).2.mChannelsNoLongerUsed ∧
    (m.mChannelsNoLongerUsed.length ≤ 1 →
      (createNewChannel
        (removeChannel (createNewChannel m n1 a1 p1 j1).2 (createNewChannel m n1 a1 p1 j1).1).2
        n2 a2 p2 j2).1 = (createNewChannel m n1 a1 p1 j1).1) := by
  have hex := channelExists_createNewChannel m n1 a1 p1 j1
  have hrm := removeChannel_of_exists _ _ hex
  have hq : (removeChannel (createNewChannel m n1 a1 p1 j1).2
      (createNewChannel m n1 a1 p1 j1).1).2.mChannelsNoLongerUsed =
      (nextUsable m).2.mChannelsNoLongerUsed ++ [(nextUsable m).1] := by
    rw [hrm]; rfl
  have hc : (removeChannel (createNewChannel m n1 a1 p1 j1).2
      (createNewChannel m n1 a1 p1 j1).1).2.mNextChannelId =
      (createNewChannel m n1 a1 p1 j1).2.mNextChannelId := by
    rw [hrm]
  have hne : (removeChannel (createNewChannel m n1 a1 p1 j1).2
      (createNewChannel m n1 a1 p1 j1).1).2.mChannelsNoLongerUsed ≠ [] := by
    rw [hq]; simp
  have hnu := nextUsable_of_ne_nil _ hne
  refine ⟨?_, ?_, ?_, ?_, ?_, ?_⟩
  · intro id rest h
    obtain ⟨live, counter, queue⟩ := m
    simp only at h
    subst h
    rfl
  · exact nextUsable_of_nil m
  · rw [hrm]
  · rw [createNewChannel_counter, hnu.2.1, hc]
  · rw [createNewChannel_fst, createNewChannel_queue]
    exact hnu.1
  · intro hlen
    rw [createNewChannel_fst, createNewChannel_fst]
    have h1 := hnu.1
    rw [hq] at h1
    obtain ⟨live, counter, queue⟩ := m
    cases queue with
    | nil => exact ((List.cons.inj h1).1).symm
    | cons q qs =>
      cases qs with
      | nil => exact ((List.cons.inj h1).1).symm
      | cons q2 qs2 => simp at hlen

/-- Witness of `nextUsable_fifo_reuse`: create "General" gives 1, remove 1,
create "Trade" gives 1 again. -/
theorem nextUsable_fifo_reuse_witness :
    construct.mChannelsNoLongerUsed.length ≤ 1 ∧
    (createNewChannel construct "General" "" "" true).1 = 1 ∧
    (createNewChannel
      (removeChannel (createNewChannel construct "General" "" "" true).2
        (createNewChannel construct "General" "" "" true).1).2
      "Trade" "" "" true).1 = (createNewChannel construct "General" "" "" true).1 :=
  ⟨by decide, by decide,
    (nextUsable_fifo_reuse construct "General" "" "" "Trade" "" "" true true).2.2.2.2.2
      (by decide)⟩

/-- C1 (counterexample): with two freed IDs queued (1, then 2), creating a
channel returns 1, removing channel 1 succeeds, and creating again returns 2,
not the ID of the first call. -/
theorem createNewChannel_reuse_not_same_id :
    (removeChannel (removeChannel (createNewChannel (createNewChannel construct
      "General" "" "" true).2 "Trade" "" "" true).2 1).2 2).2.mChannelsNoLongerUsed = [1, 2] ∧
    (createNewChannel (removeChannel (removeChannel (createNewChannel (createNewChannel
      construct "General" "" "" true).2 "Trade" "" "" true).2 1).2 2).2
      "Guild" "" "" true).1 = 1 ∧
    (removeChannel (createNewChannel (removeChannel (removeChannel (createNewChannel
      (createNewChannel construct "General" "" "" true).2 "Trade" "" "" true).2 1).2 2).2
      "Guild" "" "" true).2 1).1 = true ∧
    (createNewChannel (removeChannel (createNewChannel (removeChannel (removeChannel
      (createNewChannel (createNewChannel construct "General" "" "" true).2
      "Trade" "" "" true).2 1).2 2).2 "Guild" "" "" true).2 1).2 "Party" "" "" true).1 = 2 := by
  decide

/-! ## The allocator invariant -/

theorem toUShort_cast (n : Int) : ((toUShort n : Nat) : Int) = n % 65536 := by
  unfold toUShort
  exact Int.toNat_of_nonneg (Int.emod_nonneg _ (by norm_num))

theorem toUShort_lt (n : Int) : toUShort n < 65536 := by
  have h := toUShort_cast n
  have h2 : n % 65536 < 65536 := Int.emod_lt_of_pos _ (by norm_num)
  omega

theorem toUShort_of_range (n : Int) (h0 : 0 ≤ n) (h1 : n < 65536) :
    ((toUShort n : Nat) : Int) = n := by
  rw [toUShort_cast]
  omega

theorem Inv_of_Startup (m : ChatChannelManager) (h : Startup m) : Inv m := by
  obtain ⟨hq, hc, hl⟩ := h
  refine ⟨hc, ?_, ?_, ?_, ?_⟩
  · rw [hq]; exact List.nodup_nil
  · rw [hq]; intro id hid; cases hid
  · intro k hk
    obtain ⟨e, he, hek⟩ := mapFind_isSome_mem _ _ hk
    rw [← hek]
    exact hl e he
  · rw [hq]; intro id hid; cases hid

theorem Inv_removeChannel (m : ChatChannelManager) (id : Int) (h : Inv m) :
    Inv (removeChannel m id).2 := by
  cases hex : channelExists m id with
  | false => rw [removeChannel_of_not_exists m id hex]; exact h
  | true =>
    rw [removeChannel_of_exists m id hex]
    obtain ⟨h1, h2, h3, h4, h5⟩ := h
    have hlive : (mapFind m.mChatChannels id).isSome = true := hex
    have hnq : id ∉ m.mChannelsNoLongerUsed := by
      intro hmem
      have := h3 id hmem
      rw [this] at hlive
      cases hlive
    refine ⟨h1, ?_, ?_, ?_, ?_⟩
    · show (m.mChannelsNoLongerUsed ++ [id]).Nodup
      refine List.Nodup.append h2 (List.nodup_singleton _) ?_
      intro k hk hk2
      rw [List.mem_singleton] at hk2
      exact hnq (hk2 ▸ hk)
    · intro q hq
      show mapFind (mapErase m.mChatChannels id) q = none
      have hq2 : q ∈ m.mChannelsNoLongerUsed ++ [id] := hq
      rcases List.mem_append.mp hq2 with hq3 | hq3
      · have hne : q ≠ id := fun e => hnq (e ▸ hq3)
        rw [mapFind_mapErase_ne _ _ _ hne]
        exact h3 q hq3
      · rw [List.mem_singleton] at hq3
        rw [hq3]
        exact mapFind_mapErase_self _ _
    · intro k hk
      have hk2 : (mapFind (mapErase m.mChatChannels id) k).isSome = true := hk
      by_cases hkk : k = id
      · rw [hkk, mapFind_mapErase_self] at hk2
        cases hk2
      · rw [mapFind_mapErase_ne _ _ _ hkk] at hk2
        exact h4 k hk2
    · intro q hq
      have hq2 : q ∈ m.mChannelsNoLongerUsed ++ [id] := hq
      rcases List.mem_append.mp hq2 with hq3 | hq3
      · exact h5 q hq3
      · rw [List.mem_singleton] at hq3
        rw [hq3]
        exact h4 _ hlive

theorem Inv_createNewChannel (m : ChatChannelManager) (n a p : String) (j : Bool)
    (h : Inv m) : Inv (createNewChannel m n a p j).2 := by
  obtain ⟨live, counter, queue⟩ := m
  obtain ⟨h1, h2, h3, h4, h5⟩ := h
  simp only at h1 h2 h3 h4 h5
  cases queue with
  | cons q qs =>
    have hnd := List.nodup_cons.mp h2
    have hne : ∀ id ∈ qs, id ≠ q := fun id hid e => hnd.1 (e ▸ hid)
    refine ⟨h1, hnd.2, ?_, ?_, ?_⟩
    · intro id hid
      show mapFind (mapSet live q _) id = none
      rw [mapFind_mapSet_ne _ _ _ _ (hne id hid)]
      exact h3 id (List.mem_cons_of_mem _ hid)
    · intro k hk
      have hk2 : (mapFind (mapSet live q ⟨n, a, p, j⟩) k).isSome = true := hk
      by_cases hkk : k = q
      · rw [hkk]; exact h5 q (List.mem_cons_self _ _)
      · rw [mapFind_mapSet_ne _ _ _ _ hkk] at hk2
        exact h4 k hk2
    · intro id hid
      exact h5 id (List.mem_cons_of_mem _ hid)
  | nil =>
    refine ⟨?_, List.nodup_nil, ?_, ?_, ?_⟩
    · show (1 : Int) ≤ counter + 1
      omega
    · intro id hid; cases hid
    · intro k hk
      have hk2 : (mapFind (mapSet live counter ⟨n, a, p, j⟩) k).isSome = true := hk
      show 1 ≤ k ∧ k < counter + 1
      by_cases hkk : k = counter
      · rw [hkk]
        exact ⟨h1, by omega⟩
      · rw [mapFind_mapSet_ne _ _ _ _ hkk] at hk2
        have := h4 k hk2
        exact ⟨this.1, by omega⟩
    · intro id hid; cases hid

theorem Inv_step (m : ChatChannelManager) (op : Op) (h : Inv m) : Inv (step m op) := by
  cases op with
  | create n a p j => exact Inv_createNewChannel m n a p j h
  | remove id => exact Inv_removeChannel m id h

theorem Inv_run (ops : List Op) (m : ChatChannelManager) (h : Inv m) : Inv (run m ops) := by
  induction ops generalizing m with
  | nil => exact h
  | cons op rest ih => exact ih (step m op) (Inv_step m op h)

theorem nextUsable_ge_one (m : ChatChannelManager) (h : Inv m) : 1 ≤ (nextUsable m).1 := by
  obtain ⟨live, counter, queue⟩ := m
  obtain ⟨h1, h2, h3, h4, h5⟩ := h
  simp only at h1 h5
  cases queue with
  | cons q qs => exact (h5 q (List.mem_cons_self _ _)).1
  | nil => exact h1

theorem nextUsable_le_counter (m : ChatChannelManager) (h : Inv m) :
    (nextUsable m).1 ≤ m.mNextChannelId := by
  obtain ⟨live, counter, queue⟩ := m
  obtain ⟨h1, h2, h3, h4, h5⟩ := h
  simp only at h1 h5
  cases queue with
  | cons q qs => exact le_of_lt (h5 q (List.mem_cons_self _ _)).2
  | nil => exact le_refl _

theorem run_append (m : ChatChannelManager) (ops1 ops2 : List Op) :
    run m (ops1 ++ ops2) = run (run m ops1) ops2 := by
  unfold run
  exact List.foldl_append _ _ _ _

theorem run_replicate_create (cn ca cp : String) (cj : Bool) (n : Nat) :
    (run construct (List.replicate n
        (Op.create cn ca cp cj))).mChannelsNoLongerUsed = [] ∧
    (run construct (List.replicate n
        (Op.create cn ca cp cj))).mNextChannelId = (n : Int) + 1 ∧
    ∀ k : Int, 1 ≤ k → k ≤ (n : Int) →
      mapFind (run construct (List.replicate n
        (Op.create cn ca cp cj))).mChatChannels k = some ⟨cn, ca, cp, cj⟩ := by
  induction n with
  | zero =>
    refine ⟨rfl, rfl, ?_⟩
    intro k h1 h2
    have h3 : k ≤ 0 := h2
    omega
  | succ n ih =>
    rw [List.replicate_succ', run_append]
    obtain ⟨ihq, ihc, ihl⟩ := ih
    generalize run construct (List.replicate n
      (Op.create cn ca cp cj)) = m at ihq ihc ihl
    have hnu := nextUsable_of_nil m ihq
    have hstep : run m [Op.create cn ca cp cj] =
        (createNewChannel m cn ca cp cj).2 := rfl
    rw [hstep]
    refine ⟨?_, ?_, ?_⟩
    · rw [createNewChannel_queue, hnu]
      exact ihq
    · rw [createNewChannel_counter, hnu]
      show m.mNextChannelId + 1 = ((n + 1 : Nat) : Int) + 1
      rw [ihc]
      push_cast
      rfl
    · intro k h1 h2
      rw [createNewChannel_live, hnu]
      show mapFind (mapSet m.mChatChannels m.mNextChannelId _) k = some ⟨cn, ca, cp, cj⟩
      by_cases hk : k = m.mNextChannelId
      · rw [hk]
        exact mapFind_mapSet_self _ _ _
      · rw [mapFind_mapSet_ne _ _ _ _ hk]
        apply ihl k h1
        push_cast at h2
        omega

theorem counter_after_creates (m : ChatChannelManager) (n : Nat) (c : Int)
    (h : m.mNextChannelId = (n : Int) + 1) (hc : c = (n : Int) + 1) :
    m.mNextChannelId = c := by
  rw [h, hc]

theorem createNewChannel_fst_of_nil (m : ChatChannelManager) (c : Int)
    (n a p : String) (j : Bool) (hq : m.mChannelsNoLongerUsed = [])
    (hc : m.mNextChannelId = c) : (createNewChannel m n a p j).1 = c := by
  rw [createNewChannel_fst, nextUsable_of_nil m hq]
  exact hc

/-! ## C2: live IDs are unique -/

theorem createNewChannel_id_ge_one (m0 : ChatChannelManager) (h0 : Startup m0)
    (ops : List Op) (n a p : String) (j : Bool) :
    1 ≤ (createNewChannel (run m0 ops) n a p j).1 ∧
    ((run m0 ops).mNextChannelId ≤ 65535 →
      (createNewChannel (run m0 ops) n a p j).1 ≤ 65535) := by
  have hinv := Inv_run ops m0 (Inv_of_Startup m0 h0)
  generalize run m0 ops = m at hinv
  rw [createNewChannel_fst]
  refine ⟨nextUsable_ge_one m hinv, ?_⟩
  intro hc
  exact le_trans (nextUsable_le_counter m hinv) hc

/-- C3 (failing run): on a freshly constructed registry, after 65535 calls of
`createNewChannel` no freed ID is queued and the counter stands at 65536; the
next call of `createNewChannel` returns 65536, which is above 65535, the
largest `unsigned short`, and whose value as an `unsigned short`, the key type
of the live map, is 0. -/
theorem createNewChannel_id_out_of_range :
    (run construct (List.replicate 65535
      (Op.create "General" "" "" true))).mChannelsNoLongerUsed = [] ∧
    (run construct (List.replicate 65535
      (Op.create "General" "" "" true))).mNextChannelId = 65536 ∧
    (createNewChannel (run construct (List.replicate 65535 (Op.create "General" "" "" true)))
      "Trade" "" "" true).1 = 65536 ∧
    ¬ ((65536 : Int) ≤ 65535) ∧
    toUShort 65536 = 0 := by
  obtain ⟨hq, hc, _⟩ := run_replicate_create "General" "" "" true 65535
  have hc2 := counter_after_creates _ 65535 65536 hc (by norm_num)
  exact ⟨hq, hc2, createNewChannel_fst_of_nil _ 65536 "Trade" "" "" true hq hc2,
    by decide, by decide⟩

/-! ## C4: `channelExists` over the life of a channel -/

theorem not_live_of_returnedIds (ops : List Op) (m : ChatChannelManager) (id : Int)
    (hm : channelExists m id = false)
    (hr : ∀ r ∈ returnedIds m ops, r ≠ id) :
    channelExists (run m ops) id = false := by
  induction ops generalizing m with
  | nil => exact hm
  | cons op rest ih =>
    cases op with
    | create n a p j =>
      apply ih (createNewChannel m n a p j).2
      · unfold channelExists
        rw [createNewChannel_live]
        have hne : id ≠ (nextUsable m).1 := by
          intro e
          exact hr (createNewChannel m n a p j).1 (List.mem_cons_self _ _) e.symm
        rw [mapFind_mapSet_ne _ _ _ _ hne, nextUsable_live]
        exact hm
      · intro r hrm
        exact hr r (List.mem_cons_of_mem _ hrm)
    | remove rid =>
      apply ih (removeChannel m rid).2
      · cases hex : channelExists m rid with
        | false => rw [removeChannel_of_not_exists m rid hex]; exact hm
        | true =>
          rw [removeChannel_of_exists m rid hex]
          show (mapFind (mapErase m.mChatChannels rid) id).isSome = false
          by_cases hk : id = rid
          · rw [hk, mapFind_mapErase_self]; rfl
          · rw [mapFind_mapErase_ne _ _ _ hk]; exact hm
      · exact hr

/-- C4: `channelExists (id)` is false in the empty registry, false in any
state whose live map has no entry under `id`, and false after any sequence of
calls from the empty registry in which no creation returned `id`, for every
integer `id` and for the IDs from 1 to 65535 in particular; it is true right
after `createNewChannel` returned `id`; and it is false right after
`removeChannel (id)` succeeded. -/
theorem channelExists_lifecycle (m : ChatChannelManager) (id : Int) (n a p : String)
    (j : Bool) (ops : List Op) :
    channelExists construct id = false ∧
    ((∀ e ∈ m.mChatChannels, e.1 ≠ id) → channelExists m id = false) ∧
    ((∀ r ∈ returnedIds construct ops, r ≠ id) →
      channelExists (run construct ops) id = false) ∧
    (1 ≤ id → id ≤ 65535 → id ∉ returnedIds construct ops →
      channelExists (run construct ops) id = false) ∧
    ((createNewChannel m n a p j).1 = id →
      channelExists (createNewChannel m n a p j).2 id = true) ∧
    ((removeChannel m id).1 = true → channelExists (removeChannel m id).2 id = false) := by
  refine ⟨rfl, ?_, ?_, ?_, ?_, ?_⟩
  · intro h
    unfold channelExists
    rw [mapFind_eq_none_of_not_mem _ _ h]
    rfl
  · exact not_live_of_returnedIds ops construct id rfl
  · intro _ _ hnot
    exact not_live_of_returnedIds ops construct id rfl (fun r hr e => hnot (e ▸ hr))
  · intro h
    rw [← h]
    exact channelExists_createNewChannel m n a p j
  · intro h
    cases hex : channelExists m id with
    | false =>
      rw [removeChannel_of_not_exists m id hex] at h
      cases h
    | true =>
      rw [removeChannel_of_exists m id hex]
      show (mapFind (mapErase m.mChatChannels id) id).isSome = false
      rw [mapFind_mapErase_self]
      rfl

/-- Witness of `channelExists_lifecycle`: create gives 1, remove 1 succeeds,
and `channelExists (1)` is false afterwards. -/
theorem channelExists_lifecycle_witness :
    (createNewChannel construct "General" "" "" true).1 = 1 ∧
    channelExists (createNewChannel construct "General" "" "" true).2 1 = true ∧
    (removeChannel (createNewChannel construct "General" "" "" true).2 1).1 = true ∧
    channelExists (removeChannel (createNewChannel construct "General" "" "" true).2 1).2 1
      = false :=
  ⟨by decide,
    (channelExists_lifecycle construct 1 "General" "" "" true []).2.2.2.2.1 (by decide),
    by decide,
    (channelExists_lifecycle (createNewChannel construct "General" "" "" true).2 1
      "General" "" "" true []).2.2.2.2.2 (by decide)⟩

/-! ## C5: `removeChannel` -/

/-- C5: `removeChannel (id)` returns true exactly when the live map holds an
entry whose ID is `id`, which is when `channelExists (id)` holds; then the
entries of the live map afterwards are the former entries with an ID other
than `id`, so the channel is removed and every other channel is kept, `id` is
appended to the freed-ID queue and the counter is unchanged; when it returns
false the registry is unchanged; and a second `removeChannel (id)` returns
false and changes nothing, so `id` is not queued twice. -/
theorem removeChannel_spec (m : ChatChannelManager) (id : Int) :
    ((removeChannel m id).1 = true ↔ ∃ c, (id, c) ∈ m.mChatChannels) ∧
    ((removeChannel m id).1 = true ↔ channelExists m id = true) ∧
    ((removeChannel m id).1 = true →
      (removeChannel m id).2.mChatChannels = mapErase m.mChatChannels id ∧
      (∀ e, e ∈ (removeChannel m id).2.mChatChannels ↔ e ∈ m.mChatChannels ∧ e.1 ≠ id) ∧
      channelExists (removeChannel m id).2 id = false ∧
      (∀ k, k ≠ id →
        mapFind (removeChannel m id).2.mChatChannels k = mapFind m.mChatChannels k) ∧
      (removeChannel m id).2.mChannelsNoLongerUsed = m.mChannelsNoLongerUsed ++ [id] ∧
      (removeChannel m id).2.mNextChannelId = m.mNextChannelId) ∧
    ((removeChannel m id).1 = false → (removeChannel m id).2 = m) ∧
    removeChannel (removeChannel m id).2 id = (false, (removeChannel m id).2) := by
  have hmem := channelExists_iff_mem m id
  cases hex : channelExists m id with
  | false =>
    rw [hex] at hmem
    rw [removeChannel_of_not_exists m id hex]
    refine ⟨?_, by simp, ?_, fun _ => rfl, ?_⟩
    · constructor
      · intro h
        cases h
      · intro h
        exact hmem.mpr h
    · intro h
      cases h
    · exact removeChannel_of_not_exists m id hex
  | true =>
    rw [hex] at hmem
    rw [removeChannel_of_exists m id hex]
    have hgone : channelExists { m with
        mChatChannels := mapErase m.mChatChannels id,
        mChannelsNoLongerUsed := m.mChannelsNoLongerUsed ++ [id] } id = false := by
      show (mapFind (mapErase m.mChatChannels id) id).isSome = false
      rw [mapFind_mapErase_self]
      rfl
    refine ⟨?_, by simp, ?_, ?_, ?_⟩
    · exact ⟨fun _ => hmem.mp rfl, fun _ => rfl⟩
    · intro _
      refine ⟨rfl, ?_, hgone, ?_, rfl, rfl⟩
      · intro e
        exact mem_mapErase m.mChatChannels id e
      · intro k hk
        exact mapFind_mapErase_ne _ _ _ hk
    · intro h
      cases h
    · exact removeChannel_of_not_exists _ id hgone

/-- Witness of `removeChannel_spec`: removing the live channel 1 succeeds and
queues 1; in the empty registry the call fails and changes nothing; and with
channel 1 as the only live channel, `removeChannel (65537)` fails and changes
nothing. -/
theorem removeChannel_spec_witness :
    (removeChannel (createNewChannel construct "General" "" "" true).2 1).2.mChannelsNoLongerUsed
      = (createNewChannel construct "General" "" "" true).2.mChannelsNoLongerUsed ++ [1] ∧
    (removeChannel construct 1).2 = construct ∧
    (removeChannel (createNewChannel construct "General" "" "" true).2 65537).1 = false ∧
    (removeChannel (createNewChannel construct "General" "" "" true).2 65537).2 =
      (createNewChannel construct "General" "" "" true).2 :=
  ⟨((removeChannel_spec (createNewChannel construct "General" "" "" true).2 1).2.2.1
      (by decide)).2.2.2.2.1,
    (removeChannel_spec construct 1).2.2.2.1 (by decide),
    by decide,
    (removeChannel_spec (createNewChannel construct "General" "" "" true).2 65537).2.2.2.1
      (by decide)⟩

/-! ## C6: `tryNewPublicChannel` -/

theorem filter_mapSet_singleton {κ α : Type} [LinearOrder κ] (P : κ × α → Bool)
    (m : List (κ × α)) (k : κ) (v : α) (hm : ∀ e ∈ m, P e = false) (hv : P (k, v) = true) :
    (mapSet m k v).filter P = [(k, v)] := by
  have hnone : ∀ l : List (κ × α), (∀ e ∈ l, P e = false) → l.filter P = [] := by
    intro l hl
    apply List.filter_eq_nil_iff.mpr
    intro e he
    rw [hl e he]
    simp
  induction m with
  | nil => simp [mapSet, List.filter_cons, hv]
  | cons e' rest ih =>
    obtain ⟨k', v'⟩ := e'
    have hrest : ∀ e ∈ rest, P e = false := fun e he => hm e (List.mem_cons_of_mem _ he)
    have hhead : P (k', v') = false := hm _ (List.mem_cons_self _ _)
    unfold mapSet
    by_cases h1 : k < k'
    · rw [if_pos h1, List.filter_cons, if_pos hv, hnone _ hm]
    · rw [if_neg h1]
      by_cases h2 : k = k'
      · rw [if_pos h2, List.filter_cons, if_pos hv, hnone _ hrest]
      · rw [if_neg h2, List.filter_cons, hhead]
        simpa using ih hrest

theorem nodup_names_mapSet (m : List (Int × ChatChannel)) (k : Int) (c : ChatChannel)
    (hnd : (m.map (fun e => e.2.name)).Nodup)
    (hnew : c.name ∉ m.map (fun e => e.2.name)) :
    ((mapSet m k c).map (fun e => e.2.name)).Nodup := by
  induction m with
  | nil => simp [mapSet]
  | cons e' rest ih =>
    obtain ⟨k', v'⟩ := e'
    rw [List.map_cons, List.nodup_cons] at hnd
    rw [List.map_cons, List.mem_cons, not_or] at hnew
    unfold mapSet
    by_cases h1 : k < k'
    · rw [if_pos h1]
      simp only [List.map_cons, List.nodup_cons, List.mem_cons, not_or]
      exact ⟨⟨hnew.1, hnew.2⟩, hnd.1, hnd.2⟩
    · rw [if_neg h1]
      by_cases h2 : k = k'
      · rw [if_pos h2]
        simp only [List.map_cons, List.nodup_cons]
        exact ⟨hnew.2, hnd.2⟩
      · rw [if_neg h2]
        simp only [List.map_cons, List.nodup_cons]
        refine ⟨?_, ih hnd.2 hnew.2⟩
        intro hmem
        obtain ⟨e, he, hen⟩ := List.mem_map.mp hmem
        rcases mem_mapSet rest k c e he with h | h
        · rw [h] at hen
          exact hnew.1 hen
        · exact hnd.1 (List.mem_map.mpr ⟨e, h, hen⟩)

theorem channelExistsByName_eq_false (m : ChatChannelManager) (name : String)
    (h : channelExistsByName m name = false) :
    (∀ e ∈ m.mChatChannels, decide (e.2.name = name) = false) ∧ name ∉ liveNames m := by
  unfold channelExistsByName at h
  have hall : ∀ e ∈ m.mChatChannels, decide (e.2.name = name) = false := by
    intro e he
    cases hd : decide (e.2.name = name) with
    | false => rfl
    | true =>
      have : m.mChatChannels.any (fun e => decide (e.2.name = name)) = true :=
        List.any_eq_true.mpr ⟨e, he, hd⟩
      rw [h] at this
      cases this
  refine ⟨hall, ?_⟩
  intro hmem
  obtain ⟨e, he, hen⟩ := List.mem_map.mp hmem
  have := hall e he
  simp [hen] at this

theorem nodup_names_try (m : ChatChannelManager) (name : String)
    (h : (liveNames m).Nodup) : (liveNames (tryNewPublicChannel m name).2).Nodup := by
  unfold tryNewPublicChannel
  cases hex : channelExistsByName m name with
  | true => simpa using h
  | false =>
    simp only [Bool.false_eq_true, if_false]
    unfold liveNames
    rw [createNewChannel_live, nextUsable_live]
    exact nodup_names_mapSet _ _ ⟨name, "", "", true⟩ h
      (channelExistsByName_eq_false m name hex).2

theorem nodup_names_tryAll (names : List String) (m : ChatChannelManager)
    (h : (liveNames m).Nodup) : (liveNames (tryAll m names)).Nodup := by
  induction names generalizing m with
  | nil => exact h
  | cons name rest ih => exact ih _ (nodup_names_try m name h)

/-- C6: `tryNewPublicChannel (name)` returns false and leaves the registry
unchanged when a live channel already carries the name; otherwise it returns
true, the registry is the one `createNewChannel` yields for that name, exactly
one live channel carries the name afterwards, and the channels under the other
IDs are untouched.  Hence a registry whose live names are pairwise distinct,
the empty registry in particular, keeps them pairwise distinct under any
sequence of `tryNewPublicChannel` calls. -/
theorem tryNewPublicChannel_spec (m : ChatChannelManager) (name : String)
    (names : List String) :
    (channelExistsByName m name = true → tryNewPublicChannel m name = (false, m)) ∧
    (channelExistsByName m name = false →
      (tryNewPublicChannel m name).1 = true ∧
      (tryNewPublicChannel m name).2 = (createNewChannel m name "" "" true).2 ∧
      (tryNewPublicChannel m name).2.mChatChannels.filter (fun e => decide (e.2.name = name))
        = [((nextUsable m).1, ⟨name, "", "", true⟩)] ∧
      (∀ k, k ≠ (nextUsable m).1 →
        mapFind (tryNewPublicChannel m name).2.mChatChannels k = mapFind m.mChatChannels k)) ∧
    ((liveNames m).Nodup → (liveNames (tryAll m names)).Nodup) ∧
    (liveNames (tryAll construct names)).Nodup := by
  refine ⟨?_, ?_, nodup_names_tryAll names m, nodup_names_tryAll names construct List.nodup_nil⟩
  · intro h
    unfold tryNewPublicChannel
    rw [if_pos h]
  · intro h
    have htry : tryNewPublicChannel m name = (true, (createNewChannel m name "" "" true).2) := by
      unfold tryNewPublicChannel
      rw [h]
      rfl
    rw [htry]
    refine ⟨rfl, rfl, ?_, ?_⟩
    · show (createNewChannel m name "" "" true).2.mChatChannels.filter _ = _
      rw [createNewChannel_live, nextUsable_live]
      exact filter_mapSet_singleton _ _ _ _ (channelExistsByName_eq_false m name h).1
        (by simp)
    · intro k hk
      show mapFind (createNewChannel m name "" "" true).2.mChatChannels k = _
      rw [createNewChannel_live, nextUsable_live]
      exact mapFind_mapSet_ne _ _ _ _ hk

/-- Witness of `tryNewPublicChannel_spec`: "General" is registered once; a
second attempt with the same name fails and changes nothing. -/
theorem tryNewPublicChannel_spec_witness :
    (tryNewPublicChannel construct "General").1 = true ∧
    tryNewPublicChannel (tryNewPublicChannel construct "General").2 "General" =
      (false, (tryNewPublicChannel construct "General").2) ∧
    (liveNames (tryAll construct ["General", "Trade", "General"])).Nodup :=
  ⟨((tryNewPublicChannel_spec construct "General" []).2.1 (by decide)).1,
    (tryNewPublicChannel_spec (tryNewPublicChannel construct "General").2 "General" []).1
      (by decide),
    (tryNewPublicChannel_spec construct "General" ["General", "Trade", "General"]).2.2.1
      (by decide)⟩

end ChatChannelManager

/-! ## Channel persistence: lookups in the channel table -/

theorem mapFind_append_of_none {κ α : Type} [LinearOrder κ] (l1 l2 : List (κ × α)) (k : κ)
    (h : mapFind l1 k = none) : mapFind (l1 ++ l2) k = mapFind l2 k := by
  induction l1 with
  | nil => rfl
  | cons e rest ih =>
    obtain ⟨k', v'⟩ := e
    by_cases hk : k' = k
    · simp [mapFind, hk] at h
    · simp only [mapFind, hk, if_false] at h
      simp only [List.cons_append, mapFind, hk, if_false]
      exact ih h

theorem mapFind_append_of_some {κ α : Type} [LinearOrder κ] (l1 l2 : List (κ × α)) (k : κ)
    (v : α) (h : mapFind l1 k = some v) : mapFind (l1 ++ l2) k = some v := by
  induction l1 with
  | nil => simp [mapFind] at h
  | cons e rest ih =>
    obtain ⟨k', v'⟩ := e
    by_cases hk : k' = k
    · simp only [mapFind, hk, if_true] at h
      simp only [List.cons_append, mapFind, hk, if_true]
      exact h
    · simp only [mapFind, hk, if_false] at h
      simp only [List.cons_append, mapFind, hk, if_false]
      exact ih h

theorem mapFind_mem {κ α : Type} [LinearOrder κ] (m : List (κ × α)) (k : κ) (v : α)
    (h : mapFind m k = some v) : (k, v) ∈ m := by
  induction m with
  | nil => simp [mapFind] at h
  | cons e rest ih =>
    obtain ⟨k', v'⟩ := e
    by_cases hk : k' = k
    · simp only [mapFind, hk, if_true, Option.some.injEq] at h
      rw [hk, h]
      exact List.mem_cons_self _ _
    · simp only [mapFind, hk, if_false] at h
      exact List.mem_cons_of_mem _ (ih h)

theorem mapFind_cons {κ α : Type} [LinearOrder κ] (k' : κ) (v : α) (rest : List (κ × α))
    (k : κ) : mapFind ((k', v) :: rest) k = if k' = k then some v else mapFind rest k := rfl

theorem mapFind_update (t : List (Int × ChatChannel)) (id k : Int) (c : ChatChannel) :
    mapFind (t.map (fun row => if row.1 = id then (id, c) else row)) k =
      if k = id then (mapFind t k).map (fun _ => c) else mapFind t k := by
  induction t with
  | nil => simp [mapFind]
  | cons e rest ih =>
    obtain ⟨k', v'⟩ := e
    show mapFind ((if k' = id then (id, c) else (k', v')) ::
      rest.map (fun row => if row.1 = id then (id, c) else row)) k = _
    by_cases h1 : k' = id
    · rw [if_pos h1, mapFind_cons, mapFind_cons, ih, h1]
      by_cases h2 : k = id
      · rw [if_pos h2.symm, if_pos h2, if_pos h2.symm]
        rfl
      · have h3 : ¬ id = k := fun e => h2 e.symm
        rw [if_neg h3, if_neg h2, if_neg h2, if_neg h3]
    · rw [if_neg h1, mapFind_cons, mapFind_cons, ih]
      by_cases h3 : k' = k
      · have h4 : ¬ k = id := fun e => h1 (h3.trans e)
        rw [if_pos h3, if_neg h4, if_pos h3]
      · rw [if_neg h3, if_neg h3]

theorem mapFind_applyMutation_other (t : List (Int × ChatChannel)) (mu : Mutation) (k : Int)
    (h : mu.channelId ≠ k) : mapFind (applyMutation t mu) k = mapFind t k := by
  cases mu with
  | insert id c =>
    have hid : ¬ id = k := h
    show mapFind (t ++ [(id, c)]) k = mapFind t k
    cases hf : mapFind t k with
    | none =>
      rw [mapFind_append_of_none _ _ _ hf]
      simp [mapFind, hid]
    | some v => exact mapFind_append_of_some _ _ _ _ hf
  | delete id =>
    have hid : k ≠ id := fun e => h e.symm
    exact mapFind_mapErase_ne t id k hid
  | update id c =>
    have hid : ¬ k = id := fun e => h e.symm
    show mapFind (t.map (fun row => if row.1 = id then (id, c) else row)) k = mapFind t k
    rw [mapFind_update]
    simp [hid]

theorem mapFind_foldl_other (ms : List Mutation) (t : List (Int × ChatChannel)) (k : Int)
    (h : ∀ mu ∈ ms, mu.channelId ≠ k) :
    mapFind (ms.foldl applyMutation t) k = mapFind t k := by
  induction ms generalizing t with
  | nil => rfl
  | cons mu rest ih =>
    rw [List.foldl_cons, ih _ (fun m hm => h m (List.mem_cons_of_mem _ hm))]
    exact mapFind_applyMutation_other t mu k (h mu (List.mem_cons_self _ _))

theorem mapFind_foldl_deletes (ids : List Int) (t : List (Int × ChatChannel)) (k : Int) :
    mapFind ((ids.map Mutation.delete).foldl applyMutation t) k =
      if k ∈ ids then none else mapFind t k := by
  induction ids generalizing t with
  | nil => simp
  | cons id rest ih =>
    rw [List.map_cons, List.foldl_cons, ih]
    have hdel : applyMutation t (Mutation.delete id) = mapErase t id := rfl
    rw [hdel]
    by_cases h1 : k ∈ rest
    · simp [h1]
    · by_cases h2 : k = id
      · simp [h1, h2, mapFind_mapErase_self]
      · simp [h1, h2, mapFind_mapErase_ne _ _ _ h2]

theorem entryMutation_channelId (T : List (Int × ChatChannel)) (e : Int × ChatChannel)
    (mu : Mutation) (h : entryMutation T e = some mu) : mu.channelId = e.1 := by
  unfold entryMutation at h
  cases hf : mapFind T e.1 with
  | none =>
    rw [hf] at h
    simp only [Option.some.injEq] at h
    rw [← h]
    rfl
  | some row =>
    rw [hf] at h
    by_cases hr : row = e.2
    · simp [hr] at h
    · simp only [hr, if_false, Option.some.injEq] at h
      rw [← h]
      rfl

theorem mapFind_foldl_entries_none (T S : List (Int × ChatChannel))
    (t : List (Int × ChatChannel)) (k : Int) (h : ∀ e ∈ S, e.1 ≠ k) :
    mapFind ((S.filterMap (entryMutation T)).foldl applyMutation t) k = mapFind t k := by
  apply mapFind_foldl_other
  intro mu hmu
  obtain ⟨e, he, hem⟩ := List.mem_filterMap.mp hmu
  rw [entryMutation_channelId T e mu hem]
  exact h e he

theorem mapFind_foldl_entries_some (T S : List (Int × ChatChannel))
    (t : List (Int × ChatChannel)) (k : Int) (c : ChatChannel) (hs : mapSorted S)
    (hk : mapFind S k = some c) (ht : mapFind t k = mapFind T k) :
    mapFind ((S.filterMap (entryMutation T)).foldl applyMutation t) k = some c := by
  induction S generalizing t with
  | nil => simp [mapFind] at hk
  | cons e rest ih =>
    obtain ⟨k', v'⟩ := e
    unfold mapSorted at hs
    rw [List.pairwise_cons] at hs
    rw [mapFind_cons] at hk
    by_cases hkk : k' = k
    · rw [if_pos hkk, Option.some.injEq] at hk
      subst hkk
      subst hk
      have hrest : ∀ e ∈ rest, e.1 ≠ k' := fun e he => ne_of_gt (hs.1 e he)
      rw [List.filterMap_cons]
      cases hT : mapFind T k' with
      | none =>
        have hem : entryMutation T (k', v') = some (Mutation.insert k' v') := by
          unfold entryMutation
          rw [hT]
        rw [hem]
        show mapFind ((rest.filterMap (entryMutation T)).foldl applyMutation
          (t ++ [(k', v')])) k' = some v'
        rw [mapFind_foldl_entries_none T rest _ k' hrest,
          mapFind_append_of_none _ _ _ (ht.trans hT), mapFind_cons, if_pos rfl]
      | some row =>
        by_cases hr : row = v'
        · have hem : entryMutation T (k', v') = none := by
            unfold entryMutation
            rw [hT]
            simp [hr]
          rw [hem]
          show mapFind ((rest.filterMap (entryMutation T)).foldl applyMutation t) k' = some v'
          rw [mapFind_foldl_entries_none T rest _ k' hrest, ht, hT, hr]
        · have hem : entryMutation T (k', v') = some (Mutation.update k' v') := by
            unfold entryMutation
            rw [hT]
            simp [hr]
          rw [hem]
          show mapFind ((rest.filterMap (entryMutation T)).foldl applyMutation
            (t.map (fun r => if r.1 = k' then (k', v') else r))) k' = some v'
          rw [mapFind_foldl_entries_none T rest _ k' hrest, mapFind_update, if_pos rfl, ht, hT]
          rfl
    · rw [if_neg hkk] at hk
      rw [List.filterMap_cons]
      cases hem : entryMutation T (k', v') with
      | none => exact ih t hs.2 hk ht
      | some mu =>
        show mapFind ((rest.filterMap (entryMutation T)).foldl applyMutation
          (applyMutation t mu)) k = some c
        apply ih _ hs.2 hk
        rw [mapFind_applyMutation_other t mu k]
        · exact ht
        · rw [entryMutation_channelId T _ mu hem]
          exact hkk

theorem mem_staleIds (T S : List (Int × ChatChannel)) (k : Int) :
    k ∈ staleIds T S ↔ (∃ row ∈ T, row.1 = k) ∧ mapFind S k = none := by
  unfold staleIds
  rw [List.mem_map]
  constructor
  · rintro ⟨row, hrow, hk⟩
    rw [List.mem_filter] at hrow
    rw [← hk]
    exact ⟨⟨row, hrow.1, rfl⟩, Option.isNone_iff_eq_none.mp hrow.2⟩
  · rintro ⟨⟨row, hrow, hk⟩, hS⟩
    refine ⟨row, ?_, hk⟩
    rw [List.mem_filter]
    refine ⟨hrow, ?_⟩
    rw [hk, hS]
    rfl

theorem mapFind_channelDiff (T S : List (Int × ChatChannel)) (hs : mapSorted S) (k : Int) :
    mapFind ((channelDiff T S).foldl applyMutation T) k = mapFind S k := by
  unfold channelDiff
  rw [List.foldl_append]
  have hdel := mapFind_foldl_deletes (staleIds T S) T k
  cases hS : mapFind S k with
  | none =>
    have hne : ∀ e ∈ S, e.1 ≠ k := by
      intro e he hek
      have := mapFind_isSome_of_mem S e he
      rw [hek, hS] at this
      cases this
    rw [mapFind_foldl_entries_none T S _ k hne, hdel]
    by_cases hst : k ∈ staleIds T S
    · rw [if_pos hst]
    · rw [if_neg hst]
      cases hT : mapFind T k with
      | none => rfl
      | some v =>
        exfalso
        apply hst
        rw [mem_staleIds]
        exact ⟨⟨(k, v), mapFind_mem T k v hT, rfl⟩, hS⟩
  | some c =>
    apply mapFind_foldl_entries_some T S _ k c hs hS
    rw [hdel]
    have hst : k ∉ staleIds T S := by
      intro h
      rw [mem_staleIds, hS] at h
      cases h.2
    rw [if_neg hst]

/-! ## Channel persistence: the map loaded by `getChannelList` -/

theorem mapSorted_mapSet {κ α : Type} [LinearOrder κ] (m : List (κ × α)) (k : κ) (v : α)
    (h : mapSorted m) : mapSorted (mapSet m k v) := by
  unfold mapSorted at h ⊢
  induction m with
  | nil => simp [mapSet]
  | cons e rest ih =>
    obtain ⟨k', v'⟩ := e
    rw [List.pairwise_cons] at h
    unfold mapSet
    by_cases h1 : k < k'
    · rw [if_pos h1, List.pairwise_cons, List.pairwise_cons]
      refine ⟨?_, h.1, h.2⟩
      intro e he
      rcases List.mem_cons.mp he with he | he
      · rw [he]; exact h1
      · exact lt_trans h1 (h.1 e he)
    · rw [if_neg h1]
      by_cases h2 : k = k'
      · rw [if_pos h2, List.pairwise_cons]
        refine ⟨?_, h.2⟩
        intro e he
        rw [h2]
        exact h.1 e he
      · rw [if_neg h2, List.pairwise_cons]
        refine ⟨?_, ih h.2⟩
        intro e he
        rcases mem_mapSet rest k v e he with he | he
        · rw [he]
          exact lt_of_le_of_ne (not_lt.mp h1) (fun e => h2 e.symm)
        · exact h.1 e he

theorem mapSorted_mapInsert {κ α : Type} [LinearOrder κ] (m : List (κ × α)) (k : κ) (v : α)
    (h : mapSorted m) : mapSorted (mapInsert m k v) := by
  unfold mapInsert
  by_cases hp : (mapFind m k).isSome = true
  · rw [if_pos hp]; exact h
  · rw [if_neg hp]; exact mapSorted_mapSet m k v h

theorem mapFind_mapInsert {κ α : Type} [LinearOrder κ] (m : List (κ × α)) (k j : κ) (v : α) :
    mapFind (mapInsert m k v) j = (mapFind m j).or (if k = j then some v else none) := by
  unfold mapInsert
  by_cases hp : (mapFind m k).isSome = true
  · rw [if_pos hp]
    by_cases hkj : k = j
    · rw [if_pos hkj, ← hkj]
      obtain ⟨x, hx⟩ := Option.isSome_iff_exists.mp hp
      rw [hx]
      rfl
    · rw [if_neg hkj]
      cases mapFind m j <;> rfl
  · rw [if_neg hp]
    by_cases hkj : k = j
    · rw [if_pos hkj, ← hkj, mapFind_mapSet_self]
      cases hf : mapFind m k with
      | none => rfl
      | some x => rw [hf] at hp; exact absurd rfl hp
    · rw [if_neg hkj, mapFind_mapSet_ne _ _ _ _ (fun e => hkj e.symm)]
      cases mapFind m j <;> rfl

theorem mapFind_foldl_mapInsert {κ α : Type} [LinearOrder κ] (l acc : List (κ × α)) (j : κ) :
    mapFind (l.foldl (fun acc row => mapInsert acc row.1 row.2) acc) j =
      (mapFind acc j).or (mapFind l j) := by
  induction l generalizing acc with
  | nil =>
    show mapFind acc j = (mapFind acc j).or none
    cases mapFind acc j <;> rfl
  | cons e rest ih =>
    obtain ⟨k', v'⟩ := e
    rw [List.foldl_cons, ih, mapFind_mapInsert, mapFind_cons]
    cases mapFind acc j with
    | some x => rfl
    | none =>
      by_cases hk : k' = j
      · simp [hk]
      · simp [hk]

theorem mapSorted_foldl_mapInsert {κ α : Type} [LinearOrder κ] (l acc : List (κ × α))
    (h : mapSorted acc) :
    mapSorted (l.foldl (fun acc row => mapInsert acc row.1 row.2) acc) := by
  induction l generalizing acc with
  | nil => exact h
  | cons e rest ih => exact ih _ (mapSorted_mapInsert acc e.1 e.2 h)

theorem mapFind_none_of_lt {κ α : Type} [LinearOrder κ] (m : List (κ × α)) (k : κ)
    (h : ∀ e ∈ m, k < e.1) : mapFind m k = none := by
  apply mapFind_eq_none_of_not_mem
  intro e he
  exact ne_of_gt (h e he)

theorem mapSorted_ext {κ α : Type} [LinearOrder κ] (l1 l2 : List (κ × α))
    (h1 : mapSorted l1) (h2 : mapSorted l2) (h : ∀ k, mapFind l1 k = mapFind l2 k) :
    l1 = l2 := by
  induction l1 generalizing l2 with
  | nil =>
    cases l2 with
    | nil => rfl
    | cons e2 r2 =>
      have := h e2.1
      rw [mapFind_cons, if_pos rfl] at this
      cases this
  | cons e1 r1 ih =>
    obtain ⟨k1, v1⟩ := e1
    cases l2 with
    | nil =>
      have := h k1
      rw [mapFind_cons, if_pos rfl] at this
      cases this
    | cons e2 r2 =>
      obtain ⟨k2, v2⟩ := e2
      unfold mapSorted at h1 h2
      rw [List.pairwise_cons] at h1 h2
      have hk : k1 = k2 := by
        rcases lt_trichotomy k1 k2 with hlt | heq | hgt
        · exfalso
          have := h k1
          rw [mapFind_cons, if_pos rfl, mapFind_cons, if_neg (ne_of_gt hlt),
            mapFind_none_of_lt r2 k1 (fun e he => lt_trans hlt (h2.1 e he))] at this
          cases this
        · exact heq
        · exfalso
          have := h k2
          rw [mapFind_cons, if_neg (ne_of_gt hgt),
            mapFind_none_of_lt r1 k2 (fun e he => lt_trans hgt (h1.1 e he)),
            mapFind_cons, if_pos rfl] at this
          cases this
      subst hk
      have hv : v1 = v2 := by
        have := h k1
        rw [mapFind_cons, if_pos rfl, mapFind_cons, if_pos rfl] at this
        exact Option.some.inj this
      subst hv
      have hr : r1 = r2 := by
        apply ih r2 h1.2 h2.2
        intro k
        by_cases hkk : k1 = k
        · rw [← hkk, mapFind_none_of_lt r1 k1 h1.1, mapFind_none_of_lt r2 k1 h2.1]
        · have := h k
          rw [mapFind_cons, if_neg hkk, mapFind_cons, if_neg hkk] at this
          exact this
      rw [hr]

/-! ## C7 and C8: `updateChannels` -/

theorem mapFind_of_mem_sorted {κ α : Type} [LinearOrder κ] (m : List (κ × α)) (k : κ) (v : α)
    (hs : mapSorted m) (h : (k, v) ∈ m) : mapFind m k = some v := by
  induction m with
  | nil => cases h
  | cons e rest ih =>
    obtain ⟨k', v'⟩ := e
    unfold mapSorted at hs
    rw [List.pairwise_cons] at hs
    rw [mapFind_cons]
    rcases List.mem_cons.mp h with h | h
    · have hk : k' = k := (congrArg Prod.fst h).symm
      have hv : v' = v := (congrArg Prod.snd h).symm
      rw [if_pos hk, hv]
    · have hlt := hs.1 (k, v) h
      rw [if_neg (ne_of_lt hlt)]
      exact ih hs.2 h

theorem entryMutation_eq_insert (T : List (Int × ChatChannel)) (e : Int × ChatChannel)
    (id : Int) (c : ChatChannel) :
    entryMutation T e = some (Mutation.insert id c) ↔ e = (id, c) ∧ mapFind T id = none := by
  obtain ⟨k, v⟩ := e
  unfold entryMutation
  constructor
  · intro h
    cases hf : mapFind T k with
    | none =>
      rw [hf] at h
      simp only [Option.some.injEq, Mutation.insert.injEq] at h
      rw [← h.1, ← h.2]
      exact ⟨rfl, hf⟩
    | some row =>
      rw [hf] at h
      by_cases hr : row = v
      · simp [hr] at h
      · simp [hr] at h
  · rintro ⟨he, hf⟩
    rw [Prod.mk.injEq] at he
    rw [he.1, he.2, hf]

theorem entryMutation_eq_update (T : List (Int × ChatChannel)) (e : Int × ChatChannel)
    (id : Int) (c : ChatChannel) :
    entryMutation T e = some (Mutation.update id c) ↔
      e = (id, c) ∧ ∃ row, mapFind T id = some row ∧ row ≠ c := by
  obtain ⟨k, v⟩ := e
  unfold entryMutation
  constructor
  · intro h
    cases hf : mapFind T k with
    | none =>
      rw [hf] at h
      simp at h
    | some row =>
      rw [hf] at h
      by_cases hr : row = v
      · simp [hr] at h
      · simp only [hr, if_false, Option.some.injEq, Mutation.update.injEq] at h
        rw [← h.1, ← h.2]
        exact ⟨rfl, row, hf, hr⟩
  · rintro ⟨he, row, hf, hr⟩
    rw [Prod.mk.injEq] at he
    rw [he.1, he.2, hf]
    simp [hr]

theorem entryMutation_ne_delete (T : List (Int × ChatChannel)) (e : Int × ChatChannel)
    (id : Int) : entryMutation T e ≠ some (Mutation.delete id) := by
  unfold entryMutation
  cases hf : mapFind T e.1 with
  | none => simp
  | some row =>
    by_cases hr : row = e.2
    · simp [hr]
    · simp [hr]

theorem channelDiff_eq_nil (T S : List (Int × ChatChannel)) (hS : mapSorted S)
    (h : ∀ k, mapFind T k = mapFind S k) : channelDiff T S = [] := by
  unfold channelDiff staleIds
  have h1 : T.filter (fun row => (mapFind S row.1).isNone) = [] := by
    apply List.filter_eq_nil_iff.mpr
    intro row hrow
    have := mapFind_isSome_of_mem T row hrow
    rw [h row.1] at this
    obtain ⟨x, hx⟩ := Option.isSome_iff_exists.mp this
    rw [hx]
    simp
  have h2 : ∀ l : List (Int × ChatChannel), (∀ e ∈ l, e ∈ S) →
      l.filterMap (entryMutation T) = [] := by
    intro l
    induction l with
    | nil => intro _; rfl
    | cons e rest ih =>
      intro hl
      have he : entryMutation T e = none := by
        unfold entryMutation
        rw [h e.1, mapFind_of_mem_sorted S e.1 e.2 hS (hl e (List.mem_cons_self _ _))]
        simp
      rw [List.filterMap_cons, he]
      exact ih (fun x hx => hl x (List.mem_cons_of_mem _ hx))
  rw [h1, h2 S (fun e he => he)]
  rfl

namespace DALStorage

/-- C8: `updateChannels (S)` issues an insert for exactly the channels of `S`
whose ID has no row in the table, a delete for exactly the IDs that have a row
but no channel in `S`, an update for exactly the channels of `S` whose row
differs, and nothing for a channel whose row is equal; afterwards the table
holds under every ID what `S` holds, and `getChannelList` returns `S`. -/
theorem updateChannels_reconciles (s : DALStorage) (S : List (Int × ChatChannel))
    (hS : mapSorted S) :
    (∀ id c, Mutation.insert id c ∈ (updateChannels s S).1 ↔
      (id, c) ∈ S ∧ mapFind s.mDb.channels id = none) ∧
    (∀ id, Mutation.delete id ∈ (updateChannels s S).1 ↔
      (∃ row ∈ s.mDb.channels, row.1 = id) ∧ mapFind S id = none) ∧
    (∀ id c, Mutation.update id c ∈ (updateChannels s S).1 ↔
      (id, c) ∈ S ∧ ∃ row, mapFind s.mDb.channels id = some row ∧ row ≠ c) ∧
    (∀ id c, (id, c) ∈ S → mapFind s.mDb.channels id = some c →
      ∀ mu ∈ (updateChannels s S).1, mu.channelId ≠ id) ∧
    (∀ k, mapFind (updateChannels s S).2.mDb.channels k = mapFind S k) ∧
    getChannelList (updateChannels s S).2 = S := by
  have hlook : ∀ k, mapFind (updateChannels s S).2.mDb.channels k = mapFind S k :=
    fun k => mapFind_channelDiff s.mDb.channels S hS k
  refine ⟨?_, ?_, ?_, ?_, hlook, ?_⟩
  · intro id c
    show Mutation.insert id c ∈ channelDiff s.mDb.channels S ↔ _
    unfold channelDiff
    rw [List.mem_append, List.mem_map, List.mem_filterMap]
    constructor
    · rintro (⟨k, _, hk⟩ | ⟨e, he, hem⟩)
      · cases hk
      · rw [entryMutation_eq_insert] at hem
        rw [← hem.1]
        exact ⟨he, hem.2⟩
    · rintro ⟨hmem, hf⟩
      exact Or.inr ⟨(id, c), hmem, (entryMutation_eq_insert _ _ _ _).mpr ⟨rfl, hf⟩⟩
  · intro id
    show Mutation.delete id ∈ channelDiff s.mDb.channels S ↔ _
    unfold channelDiff
    rw [List.mem_append, List.mem_map, List.mem_filterMap, ← mem_staleIds]
    constructor
    · rintro (⟨k, hk, hkd⟩ | ⟨e, _, hem⟩)
      · rw [Mutation.delete.injEq] at hkd
        rw [← hkd]
        exact hk
      · exact absurd hem (entryMutation_ne_delete _ _ _)
    · intro h
      exact Or.inl ⟨id, h, rfl⟩
  · intro id c
    show Mutation.update id c ∈ channelDiff s.mDb.channels S ↔ _
    unfold channelDiff
    rw [List.mem_append, List.mem_map, List.mem_filterMap]
    constructor
    · rintro (⟨k, _, hk⟩ | ⟨e, he, hem⟩)
      · cases hk
      · rw [entryMutation_eq_update] at hem
        rw [← hem.1]
        exact ⟨he, hem.2⟩
    · rintro ⟨hmem, hf⟩
      exact Or.inr ⟨(id, c), hmem, (entryMutation_eq_update _ _ _ _).mpr ⟨rfl, hf⟩⟩
  · intro id c hmem hrow mu hmu
    have hmu2 : mu ∈ channelDiff s.mDb.channels S := hmu
    unfold channelDiff at hmu2
    rw [List.mem_append, List.mem_map, List.mem_filterMap] at hmu2
    have hSid := mapFind_of_mem_sorted S id c hS hmem
    rcases hmu2 with ⟨k, hk, hkd⟩ | ⟨e, he, hem⟩
    · rw [← hkd]
      intro hkid
      have hkid2 : k = id := hkid
      rw [mem_staleIds, hkid2, hSid] at hk
      cases hk.2
    · rw [entryMutation_channelId _ e mu hem]
      intro heid
      have heS := mapFind_of_mem_sorted S e.1 e.2 hS he
      rw [heid, hSid, Option.some.injEq] at heS
      unfold entryMutation at hem
      rw [heid, hrow, heS] at hem
      simp at hem
  · apply mapSorted_ext _ _ _ hS
    · intro k
      unfold getChannelList
      rw [mapFind_foldl_mapInsert]
      show (none : Option ChatChannel).or _ = _
      rw [hlook k]
      cases mapFind S k <;> rfl
    · unfold getChannelList
      exact mapSorted_foldl_mapInsert _ _ List.Pairwise.nil

/-- Witness of `updateChannels_reconciles`: the table holds channels 1 and 3,
the memory holds a changed channel 1 and a new channel 2. -/
theorem updateChannels_reconciles_witness :
    mapSorted [((1 : Int), (⟨"General", "hello", "", true⟩ : ChatChannel)),
      (2, ⟨"Trade", "", "", true⟩)] ∧
    getChannelList (updateChannels
      (openStorage ⟨[], [], [(1, ⟨"General", "", "", true⟩), (3, ⟨"Old", "", "", true⟩)], 0, 0⟩)
      [(1, ⟨"General", "hello", "", true⟩), (2, ⟨"Trade", "", "", true⟩)]).2 =
      [(1, ⟨"General", "hello", "", true⟩), (2, ⟨"Trade", "", "", true⟩)] :=
  ⟨by unfold mapSorted; decide,
    (updateChannels_reconciles
      (openStorage ⟨[], [], [(1, ⟨"General", "", "", true⟩), (3, ⟨"Old", "", "", true⟩)], 0, 0⟩)
      [(1, ⟨"General", "hello", "", true⟩), (2, ⟨"Trade", "", "", true⟩)]
      (by unfold mapSorted; decide)).2.2.2.2.2⟩

/-- C7: `updateChannels` is idempotent: after one `updateChannels (S)`, a second
call with the same `S` issues no insert, delete or update and leaves the
storage, the persisted channel table included, as the first call left it. -/
theorem updateChannels_idempotent (s : DALStorage) (S : List (Int × ChatChannel))
    (hS : mapSorted S) :
    updateChannels (updateChannels s S).2 S = ([], (updateChannels s S).2) := by
  have hnil : channelDiff (updateChannels s S).2.mDb.channels S = [] :=
    channelDiff_eq_nil _ S hS (fun k => mapFind_channelDiff s.mDb.channels S hS k)
  generalize updateChannels s S = r at hnil
  unfold updateChannels
  rw [hnil]
  rfl

/-- Witness of `updateChannels_idempotent`: the table holds channels 1 and 3,
the memory holds a changed channel 1 and a new channel 2. -/
theorem updateChannels_idempotent_witness :
    mapSorted [((1 : Int), (⟨"General", "hello", "", true⟩ : ChatChannel)),
      (2, ⟨"Trade", "", "", true⟩)] ∧
    (updateChannels (updateChannels
      (openStorage ⟨[], [], [(1, ⟨"General", "", "", true⟩), (3, ⟨"Old", "", "", true⟩)], 0, 0⟩)
      [(1, ⟨"General", "hello", "", true⟩), (2, ⟨"Trade", "", "", true⟩)]).2
      [(1, ⟨"General", "hello", "", true⟩), (2, ⟨"Trade", "", "", true⟩)]).1 = [] :=
  ⟨by unfold mapSorted; decide,
    congrArg Prod.fst (updateChannels_idempotent
      (openStorage ⟨[], [], [(1, ⟨"General", "", "", true⟩), (3, ⟨"Old", "", "", true⟩)], 0, 0⟩)
      [(1, ⟨"General", "hello", "", true⟩), (2, ⟨"Trade", "", "", true⟩)]
      (by unfold mapSorted; decide))⟩

end DALStorage

/-! ## C9: the identity cache of accounts -/

theorem nodup_mapKeys_of_sorted {κ α : Type} [LinearOrder κ] (m : List (κ × α))
    (h : mapSorted m) : (mapKeys m).Nodup := by
  unfold mapSorted at h
  unfold mapKeys
  induction m with
  | nil => exact List.nodup_nil
  | cons e rest ih =>
    rw [List.pairwise_cons] at h
    rw [List.map_cons, List.nodup_cons]
    refine ⟨?_, ih h.2⟩
    intro hmem
    obtain ⟨e', he', hek⟩ := List.mem_map.mp hmem
    have := h.1 e' he'
    rw [hek] at this
    exact lt_irrefl _ this

namespace DALStorage

theorem getAccountBySQL_cached (s : DALStorage) (query : AccountRow → Bool) (row : AccountRow)
    (handle : Nat) (hrow : s.mDb.accounts.find? query = some row)
    (hc : mapFind s.mAccounts row.id = some handle) :
    getAccountBySQL s query = (some handle, s) := by
  unfold getAccountBySQL
  rw [hrow]
  simp only
  rw [hc]

theorem getAccountBySQL_none (s : DALStorage) (query : AccountRow → Bool)
    (hrow : s.mDb.accounts.find? query = none) : getAccountBySQL s query = (none, s) := by
  unfold getAccountBySQL
  rw [hrow]

theorem getAccountBySQL_load (s : DALStorage) (query : AccountRow → Bool) (row : AccountRow)
    (hrow : s.mDb.accounts.find? query = some row)
    (hc : mapFind s.mAccounts row.id = none) :
    getAccountBySQL s query = (some s.instances.length,
      { s with
        mAccounts := mapSet s.mAccounts row.id s.instances.length,
        instances := s.instances ++
          [{ id := row.id, username := row.username, password := row.password,
             email := row.email, level := row.level,
             characters := s.mDb.characters.filter (fun c => decide (c.accountId = row.id)) }] })
    := by
  unfold getAccountBySQL
  rw [hrow]
  simp only
  rw [hc]

theorem instances_append_of_some (l : List Account) (x : Account) (i : Nat) (a : Account)
    (h : l[i]? = some a) : (l ++ [x])[i]? = some a := by
  obtain ⟨hi, _⟩ := List.getElem?_eq_some.mp h
  rw [List.getElem?_append_left hi]
  exact h

theorem CacheInv_register (s : DALStorage) (db : DataProvider) (k : Int) (a : Account)
    (h : CacheInv s) (ha : a.id = k) :
    CacheInv { mDb := db, mAccounts := mapSet s.mAccounts k s.instances.length,
               instances := s.instances ++ [a] } := by
  obtain ⟨h1, h2⟩ := h
  refine ⟨mapSorted_mapSet _ _ _ h1, ?_⟩
  intro e he
  rcases mem_mapSet _ _ _ e he with he | he
  · rw [he]
    exact ⟨a, List.getElem?_concat_length _ _, ha⟩
  · obtain ⟨a', ha', hid⟩ := h2 e he
    exact ⟨a', instances_append_of_some _ _ _ _ ha', hid⟩

theorem CacheInv_getAccountBySQL (s : DALStorage) (query : AccountRow → Bool)
    (h : CacheInv s) : CacheInv (getAccountBySQL s query).2 := by
  cases hrow : s.mDb.accounts.find? query with
  | none => rw [getAccountBySQL_none s query hrow]; exact h
  | some row =>
    cases hc : mapFind s.mAccounts row.id with
    | some handle => rw [getAccountBySQL_cached s query row handle hrow hc]; exact h
    | none =>
      rw [getAccountBySQL_load s query row hrow hc]
      exact CacheInv_register s s.mDb row.id _ h rfl

theorem CacheInv_addAccount (s : DALStorage) (account : Account) (h : CacheInv s) :
    CacheInv (addAccount s account).2 := by
  unfold addAccount
  by_cases hdup : (doesUserNameExist s account.username ||
      doesEmailAddressExist s account.email) = true
  · rw [if_pos hdup]; exact h
  · rw [if_neg hdup]
    exact CacheInv_register s _ (s.mDb.lastAccountId + 1) _ h rfl

theorem CacheInv_runAccount (ops : List AccountOp) (s : DALStorage) (h : CacheInv s) :
    CacheInv (runAccount s ops) := by
  induction ops generalizing s with
  | nil => exact h
  | cons op rest ih =>
    apply ih
    cases op with
    | getAccount u => exact CacheInv_getAccountBySQL s _ h
    | getAccountByID k => exact CacheInv_getAccountBySQL s _ h
    | addAccount a => exact CacheInv_addAccount s a h

theorem CacheInv_openStorage (db : DataProvider) : CacheInv (openStorage db) := by
  refine ⟨List.Pairwise.nil, ?_⟩
  intro e he
  cases he

theorem getAccountBySQL_found (s : DALStorage) (query : AccountRow → Bool) (row : AccountRow)
    (h : CacheInv s) (hrow : s.mDb.accounts.find? query = some row) :
    ∃ handle a, (getAccountBySQL s query).1 = some handle ∧
      (getAccountBySQL s query).2.instances[handle]? = some a ∧ a.id = row.id ∧
      mapFind (getAccountBySQL s query).2.mAccounts row.id = some handle ∧
      (getAccountBySQL s query).2.mDb = s.mDb := by
  cases hc : mapFind s.mAccounts row.id with
  | some handle =>
    rw [getAccountBySQL_cached s query row handle hrow hc]
    obtain ⟨a, ha, hid⟩ := h.2 (row.id, handle) (mapFind_mem _ _ _ hc)
    exact ⟨handle, a, rfl, ha, hid, hc, rfl⟩
  | none =>
    rw [getAccountBySQL_load s query row hrow hc]
    exact ⟨s.instances.length, _, rfl, List.getElem?_concat_length _ _, rfl,
      mapFind_mapSet_self _ _ _, rfl⟩

/-- C9: in every state reached from a freshly opened storage, whatever the
store holds, by any sequence of `getAccount`, `getAccountByID` and
`addAccount` calls, the cache holds at most one entry per account ID; and for
every username that has a row, `getAccount` returns a non-null handle to an
instance, `getAccountByID` on the ID of that instance, called afterwards,
returns the same handle and leaves the storage as it is (no second load), and
the cache still holds at most one entry per account ID. -/
theorem getAccount_identity (db : DataProvider) (ops : List AccountOp) (u : String) :
    (mapKeys (runAccount (openStorage db) ops).mAccounts).Nodup ∧
    ((∃ row ∈ (runAccount (openStorage db) ops).mDb.accounts, row.username = u) →
      ∃ handle a,
        (getAccount (runAccount (openStorage db) ops) u).1 = some handle ∧
        (getAccount (runAccount (openStorage db) ops) u).2.instances[handle]? = some a ∧
        getAccountByID (getAccount (runAccount (openStorage db) ops) u).2 a.id =
          (some handle, (getAccount (runAccount (openStorage db) ops) u).2) ∧
        (mapKeys (getAccount (runAccount (openStorage db) ops) u).2.mAccounts).Nodup) := by
  have hinv := CacheInv_runAccount ops _ (CacheInv_openStorage db)
  generalize runAccount (openStorage db) ops = s at hinv
  refine ⟨nodup_mapKeys_of_sorted _ hinv.1, ?_⟩
  intro hrow
  obtain ⟨row0, hrow0, hu⟩ := hrow
  have hsome : (s.mDb.accounts.find? (fun row => decide (row.username = u))).isSome = true := by
    rw [List.find?_isSome]
    exact ⟨row0, hrow0, by simp [hu]⟩
  obtain ⟨row, hfind⟩ := Option.isSome_iff_exists.mp hsome
  obtain ⟨handle, a, h1, h2, h3, h4, h5⟩ := getAccountBySQL_found s _ row hinv hfind
  have hinv2 := CacheInv_getAccountBySQL s (fun row => decide (row.username = u)) hinv
  refine ⟨handle, a, h1, h2, ?_, nodup_mapKeys_of_sorted _ hinv2.1⟩
  have hsome2 : ((getAccount s u).2.mDb.accounts.find?
      (fun r => decide (r.id = a.id))).isSome = true := by
    rw [List.find?_isSome]
    refine ⟨row, ?_, by simp [h3]⟩
    show row ∈ (getAccountBySQL s _).2.mDb.accounts
    rw [h5]
    exact List.mem_of_find?_eq_some hfind
  obtain ⟨row2, hfind2⟩ := Option.isSome_iff_exists.mp hsome2
  have hid2 : row2.id = row.id := by
    have := List.find?_some hfind2
    simp only [decide_eq_true_eq] at this
    rw [this, h3]
  apply getAccountBySQL_cached _ _ row2 handle hfind2
  rw [hid2]
  exact h4

/-- Witness of `getAccount_identity`: a store holding the account of "alice"
under ID 1; the handle is 0 both times. -/
theorem getAccount_identity_witness :
    (getAccount (runAccount
      (openStorage ⟨[⟨1, "alice", "secret", "alice@example.com", 1⟩], [], [], 1, 0⟩) [])
      "alice").1 = some 0 ∧
    (getAccountByID (getAccount (runAccount
      (openStorage ⟨[⟨1, "alice", "secret", "alice@example.com", 1⟩], [], [], 1, 0⟩) [])
      "alice").2 1).1 = some 0 ∧
    ∃ handle a,
      (getAccount (runAccount
        (openStorage ⟨[⟨1, "alice", "secret", "alice@example.com", 1⟩], [], [], 1, 0⟩) [])
        "alice").1 = some handle ∧
      (getAccount (runAccount
        (openStorage ⟨[⟨1, "alice", "secret", "alice@example.com", 1⟩], [], [], 1, 0⟩) [])
        "alice").2.instances[handle]? = some a ∧
      getAccountByID (getAccount (runAccount
        (openStorage ⟨[⟨1, "alice", "secret", "alice@example.com", 1⟩], [], [], 1, 0⟩) [])
        "alice").2 a.id =
        (some handle, (getAccount (runAccount
          (openStorage ⟨[⟨1, "alice", "secret", "alice@example.com", 1⟩], [], [], 1, 0⟩) [])
          "alice").2) ∧
      (mapKeys (getAccount (runAccount
        (openStorage ⟨[⟨1, "alice", "secret", "alice@example.com", 1⟩], [], [], 1, 0⟩) [])
        "alice").2.mAccounts).Nodup :=
  ⟨by decide, by decide,
    (getAccount_identity ⟨[⟨1, "alice", "secret", "alice@example.com", 1⟩], [], [], 1, 0⟩
      [] "alice").2
      ⟨⟨1, "alice", "secret", "alice@example.com", 1⟩, List.mem_singleton.mpr rfl, rfl⟩⟩

/-! ## C10: `addAccount` on a duplicate username or email -/

/-- C10: for every storage state, `addAccount` of an account whose username or
email equals that of a stored account fails and leaves the storage unchanged:
the account rows, the character rows and the last store-assigned account key
are those of before.  An account with a fresh username and email is stored
under the key following the last one assigned. -/
theorem addAccount_duplicate_fails (s : DALStorage) (account : Account) :
    ((∃ row ∈ s.mDb.accounts,
        row.username = account.username ∨ row.email = account.email) →
      (addAccount s account).1 = false ∧
      (addAccount s account).2 = s ∧
      (addAccount s account).2.mDb.accounts = s.mDb.accounts ∧
      (addAccount s account).2.mDb.characters = s.mDb.characters ∧
      (addAccount s account).2.mDb.lastAccountId = s.mDb.lastAccountId) ∧
    ((∀ row ∈ s.mDb.accounts,
        row.username ≠ account.username ∧ row.email ≠ account.email) →
      (addAccount s account).1 = true ∧
      (addAccount s account).2.mDb.lastAccountId = s.mDb.lastAccountId + 1 ∧
      (addAccount s account).2.mDb.accounts = s.mDb.accounts ++
        [{ id := s.mDb.lastAccountId + 1, username := account.username,
           password := account.password, email := account.email,
           level := account.level }]) := by
  refine ⟨?_, ?_⟩
  · rintro ⟨row, hrow, hdup⟩
    have hcheck : (doesUserNameExist s account.username ||
        doesEmailAddressExist s account.email) = true := by
      rw [Bool.or_eq_true]
      rcases hdup with hdup | hdup
      · left
        unfold doesUserNameExist
        exact List.any_eq_true.mpr ⟨row, hrow, by simp [hdup]⟩
      · right
        unfold doesEmailAddressExist
        exact List.any_eq_true.mpr ⟨row, hrow, by simp [hdup]⟩
    have hfail : addAccount s account = (false, s) := by
      unfold addAccount
      rw [if_pos hcheck]
    rw [hfail]
    exact ⟨rfl, rfl, rfl, rfl, rfl⟩
  · intro hfresh
    have hcheck : ¬ (doesUserNameExist s account.username ||
        doesEmailAddressExist s account.email) = true := by
      rw [Bool.or_eq_true]
      rintro (h | h)
      · unfold doesUserNameExist at h
        obtain ⟨row, hrow, hp⟩ := List.any_eq_true.mp h
        exact (hfresh row hrow).1 (by simpa using hp)
      · unfold doesEmailAddressExist at h
        obtain ⟨row, hrow, hp⟩ := List.any_eq_true.mp h
        exact (hfresh row hrow).2 (by simpa using hp)
    unfold addAccount
    rw [if_neg hcheck]
    exact ⟨rfl, rfl, rfl⟩

/-- Witness of `addAccount_duplicate_fails`: "alice" / "alice@example.com" is
stored under ID 1; "bob" / "alice@example.com" fails and changes nothing;
"bob" / "bob@example.com" is then stored under ID 2. -/
theorem addAccount_duplicate_fails_witness :
    (addAccount (openStorage ⟨[], [], [], 0, 0⟩)
      ⟨0, "alice", "secret", "alice@example.com", 1, []⟩).2.mDb.accounts =
        [⟨1, "alice", "secret", "alice@example.com", 1⟩] ∧
    (addAccount (addAccount (openStorage ⟨[], [], [], 0, 0⟩)
        ⟨0, "alice", "secret", "alice@example.com", 1, []⟩).2
      ⟨0, "bob", "hidden", "alice@example.com", 1, []⟩).1 = false ∧
    (addAccount (addAccount (openStorage ⟨[], [], [], 0, 0⟩)
        ⟨0, "alice", "secret", "alice@example.com", 1, []⟩).2
      ⟨0, "bob", "hidden", "alice@example.com", 1, []⟩).2 =
      (addAccount (openStorage ⟨[], [], [], 0, 0⟩)
        ⟨0, "alice", "secret", "alice@example.com", 1, []⟩).2 ∧
    (addAccount (addAccount (addAccount (openStorage ⟨[], [], [], 0, 0⟩)
          ⟨0, "alice", "secret", "alice@example.com", 1, []⟩).2
        ⟨0, "bob", "hidden", "alice@example.com", 1, []⟩).2
      ⟨0, "bob", "hidden", "bob@example.com", 1, []⟩).2.mDb.lastAccountId = 2 :=
  ⟨by decide,
    ((addAccount_duplicate_fails
      (addAccount (openStorage ⟨[], [], [], 0, 0⟩)
        ⟨0, "alice", "secret", "alice@example.com", 1, []⟩).2
      ⟨0, "bob", "hidden", "alice@example.com", 1, []⟩).1
      ⟨⟨1, "alice", "secret", "alice@example.com", 1⟩, by decide, Or.inr (by decide)⟩).1,
    ((addAccount_duplicate_fails
      (addAccount (openStorage ⟨[], [], [], 0, 0⟩)
        ⟨0, "alice", "secret", "alice@example.com", 1, []⟩).2
      ⟨0, "bob", "hidden", "alice@example.com", 1, []⟩).1
      ⟨⟨1, "alice", "secret", "alice@example.com", 1⟩, by decide, Or.inr (by decide)⟩).2.1,
    by decide⟩

end DALStorage

/-! ## C11: guild member permissions -/

/-- C11: `GAL_OWNER` contains every right: `(GAL_OWNER & r) = r` for `r` among
`GAL_NONE`, `GAL_TOPIC_CHANGE`, `GAL_INVITE` and `GAL_KICK`, so the mask test
for topic-change, invite or kick is non-zero on `GAL_OWNER`; the three rights
are the single bits 2^0, 2^1 and 2^2, pairwise disjoint; and `GAL_NONE`
contains none of them. -/
theorem guild_owner_implies_all :
    GAL_OWNER &&& GAL_NONE = GAL_NONE ∧
    GAL_OWNER &&& GAL_TOPIC_CHANGE = GAL_TOPIC_CHANGE ∧
    GAL_OWNER &&& GAL_INVITE = GAL_INVITE ∧
    GAL_OWNER &&& GAL_KICK = GAL_KICK ∧
    GAL_OWNER &&& GAL_TOPIC_CHANGE ≠ 0 ∧
    GAL_OWNER &&& GAL_INVITE ≠ 0 ∧
    GAL_OWNER &&& GAL_KICK ≠ 0 ∧
    GAL_TOPIC_CHANGE = 2 ^ 0 ∧ GAL_INVITE = 2 ^ 1 ∧ GAL_KICK = 2 ^ 2 ∧
    GAL_TOPIC_CHANGE &&& GAL_INVITE = 0 ∧
    GAL_TOPIC_CHANGE &&& GAL_KICK = 0 ∧
    GAL_INVITE &&& GAL_KICK = 0 ∧
    GAL_NONE &&& GAL_TOPIC_CHANGE = 0 ∧
    GAL_NONE &&& GAL_INVITE = 0 ∧
    GAL_NONE &&& GAL_KICK = 0 := by
  decide

/-! ## C12: account levels -/

/-- C12: the account levels match their documentation: a player is 1, a tester
3, a dev 7, a gm 11, each the OR of the flags named; 255 contains each of the
five flags; the five flags are the single bits 2^0, 2^1, 2^2, 2^3 and 2^7,
pairwise disjoint; and `AL_BANNED` is 0. -/
theorem account_levels_match_documentation :
    AL_PLAYER = 1 ∧
    AL_PLAYER ||| AL_TESTER = 3 ∧
    AL_PLAYER ||| AL_TESTER ||| AL_DEV = 7 ∧
    AL_PLAYER ||| AL_TESTER ||| AL_GM = 11 ∧
    accountLevelFlags.all (fun f => 255 &&& f == f) = true ∧
    accountLevelFlags = [2 ^ 0, 2 ^ 1, 2 ^ 2, 2 ^ 3, 2 ^ 7] ∧
    accountLevelFlags.Pairwise (fun f g => f &&& g = 0) ∧
    AL_BANNED = 0 := by
  decide

/-! ## C13: return values -/

/-- C13: within each family of return values (generic with register, generic
with character creation, generic with email change) the codes are pairwise
distinct; each duplicate code differs from `ERRMSG_OK` and `ERRMSG_FAILURE`;
the username duplicate differs from the email duplicate; every generic code is
below 0x40; and every register, creation and email change code is at least
0x40 and below 256. -/
theorem result_codes_distinct :
    (genericCodes ++ registerCodes).Nodup ∧
    (genericCodes ++ createCodes).Nodup ∧
    (genericCodes ++ emailchgCodes).Nodup ∧
    [REGISTER_EXISTS_USERNAME, REGISTER_EXISTS_EMAIL, CREATE_EXISTS_NAME,
      EMAILCHG_EXISTS_EMAIL, ERRMSG_EMAIL_ALREADY_EXISTS, ERRMSG_ALREADY_TAKEN].all
        (fun c => c != ERRMSG_OK && c != ERRMSG_FAILURE) = true ∧
    REGISTER_EXISTS_USERNAME ≠ REGISTER_EXISTS_EMAIL ∧
    ERRMSG_ALREADY_TAKEN ≠ ERRMSG_EMAIL_ALREADY_EXISTS ∧
    genericCodes.all (fun c => decide (c < 0x40)) = true ∧
    (registerCodes ++ createCodes ++ emailchgCodes).all
      (fun c => decide (0x40 ≤ c) && decide (c < 256)) = true := by
  decide

/-! ## C14: `MessageIn::getUnreadLength` -/

theorem toInt32_of_range (x : Int) (h1 : -2147483648 ≤ x) (h2 : x < 2147483648) :
    toInt32 x = x := by
  unfold toInt32
  omega

namespace MessageIn

/-- C14: for 16-bit unsigned `mLength` and `mPos`, `getUnreadLength` is the
integer difference `mLength - mPos`, without 16-bit wrap-around; it lies from
-65535 to 65535, is non-negative exactly when `mPos <= mLength`, equals
`mLength` when `mPos` is 0, and is negative when `mPos` is above `mLength`. -/
theorem getUnreadLength_spec (m : MessageIn) (h : m.Valid) :
    m.getUnreadLength = (m.mLength : Int) - (m.mPos : Int) ∧
    -65535 ≤ m.getUnreadLength ∧ m.getUnreadLength ≤ 65535 ∧
    (0 ≤ m.getUnreadLength ↔ m.mPos ≤ m.mLength) ∧
    (m.mPos = 0 → m.getUnreadLength = (m.mLength : Int)) ∧
    (m.mLength < m.mPos → m.getUnreadLength < 0) := by
  obtain ⟨h1, _, h3⟩ := h
  have heq : m.getUnreadLength = (m.mLength : Int) - (m.mPos : Int) := by
    unfold getUnreadLength
    apply toInt32_of_range <;> omega
  rw [heq]
  refine ⟨rfl, ?_, ?_, ?_, ?_, ?_⟩ <;> omega

/-- Witness of `getUnreadLength_spec`: a packet of 4 bytes read up to position
6: the unread length is -2. -/
theorem getUnreadLength_spec_witness :
    (⟨[0, 16, 1, 2], 4, 16, 6⟩ : MessageIn).Valid ∧
    (⟨[0, 16, 1, 2], 4, 16, 6⟩ : MessageIn).getUnreadLength = -2 ∧
    (⟨[0, 16, 1, 2], 4, 16, 6⟩ : MessageIn).getUnreadLength < 0 :=
  ⟨by unfold Valid; decide,
    (getUnreadLength_spec ⟨[0, 16, 1, 2], 4, 16, 6⟩ (by unfold Valid; decide)).1,
    (getUnreadLength_spec ⟨[0, 16, 1, 2], 4, 16, 6⟩ (by unfold Valid; decide)).2.2.2.2.2
      (by decide)⟩

end MessageIn

/-! ## C15: elements and elemental modifiers -/

/-- C15 (the code at the failing input): there are 9 elements but 7 elemental
modifiers; `BASE_ELEM_BEGIN + ELEMENT_WOOD` is `BASE_ELEM_END`, which is the
index of `CHAR_ATTR_STRENGTH`, and `BASE_ELEM_BEGIN + ELEMENT_ICE` is the index
of `CHAR_ATTR_AGILITY`; the indices of lightning and metal name the modifiers
of sacred and death.  The first five elements do name their own modifier. -/
theorem element_modifiers_out_of_sync :
    ELEMENT_ILLEGAL = 9 ∧ BASE_ELEM_NB = 7 ∧
    BASE_ELEM_BEGIN + ELEMENT_WOOD = BASE_ELEM_END ∧
    BASE_ELEM_BEGIN + ELEMENT_WOOD = CHAR_ATTR_STRENGTH ∧
    BASE_ELEM_BEGIN + ELEMENT_ICE = CHAR_ATTR_AGILITY ∧
    modifierNameAt (BASE_ELEM_BEGIN + ELEMENT_WOOD) = none ∧
    modifierNameAt (BASE_ELEM_BEGIN + ELEMENT_ICE) = none ∧
    modifierNameAt (BASE_ELEM_BEGIN + ELEMENT_LIGHTNING) = some "SACRED" ∧
    modifierNameAt (BASE_ELEM_BEGIN + ELEMENT_METAL) = some "DEATH" ∧
    (elements.take 5).all
      (fun e => modifierNameAt (BASE_ELEM_BEGIN + e.2) == some e.1) = true := by
  decide

/-! ## C16: channel IDs as keys of the persisted mapping -/

/-- C16 (amended): for channel IDs `j` and `k` below 65536, the conversion of
the registry key to the `short` key of the persisted mapping is injective and
converting back returns the original ID; the key has the same numeric value
when the ID is at most 32767, and is the ID minus 65536 otherwise; and the
ordering of two IDs is preserved when both are at most 32767 or both are
above. -/
theorem toShort_channel_key (j k : Nat) (hj : j < 65536) (hk : k < 65536) :
    toUShort (toShort k) = k ∧
    (toShort j = toShort k → j = k) ∧
    -32768 ≤ toShort k ∧ toShort k ≤ 32767 ∧
    (k ≤ 32767 → toShort k = (k : Int)) ∧
    (32768 ≤ k → toShort k = (k : Int) - 65536) ∧
    (j ≤ 32767 → k ≤ 32767 → (j < k ↔ toShort j < toShort k)) ∧
    (32768 ≤ j → 32768 ≤ k → (j < k ↔ toShort j < toShort k)) := by
  have hval : ∀ n : Nat, n < 65536 →
      (n < 32768 ∧ toShort n = (n : Int)) ∨ (32768 ≤ n ∧ toShort n = (n : Int) - 65536) := by
    intro n hn
    unfold toShort
    rw [Nat.mod_eq_of_lt hn]
    by_cases h : n < 32768
    · rw [if_pos h]
      exact Or.inl ⟨h, rfl⟩
    · rw [if_neg h]
      exact Or.inr ⟨by omega, rfl⟩
  have hjv := hval j hj
  have hkv := hval k hk
  have hcast := ChatChannelManager.toUShort_cast (toShort k)
  generalize toUShort (toShort k) = u at hcast
  generalize toShort k = sk at hcast hkv
  generalize toShort j = sj at hjv
  refine ⟨?_, ?_, ?_, ?_, ?_, ?_, ?_, ?_⟩ <;> omega

/-- Witness of `toShort_channel_key`: the IDs 1 and 65535. -/
theorem toShort_channel_key_witness :
    toUShort (toShort 65535) = 65535 ∧ toShort 1 = 1 ∧ toShort 65535 = -1 :=
  ⟨(toShort_channel_key 1 65535 (by decide) (by decide)).1,
    (toShort_channel_key 1 1 (by decide) (by decide)).2.2.2.2.1 (by decide),
    (toShort_channel_key 1 65535 (by decide) (by decide)).2.2.2.2.2.1 (by decide)⟩

/-- C16 (counterexample): the channel ID 40000 becomes the key -25536, not
40000; and the IDs 32767 and 32768, in this order, become keys in the
opposite order. -/
theorem toShort_not_value_preserving :
    toShort 40000 = -25536 ∧ toShort 40000 ≠ 40000 ∧
    (32767 : Nat) < 32768 ∧ toShort 32768 < toShort 32767 := by
  decide

/-! ## C19: the blocks of attribute indices -/

/-- C19: the three index blocks are contiguous: the combat attributes start at
0 and end where the elemental modifiers begin, which end where the character
attributes begin; every index below `CHAR_ATTR_END` lies in exactly one block;
`BASE_ATTR_NB + BASE_ELEM_NB = NB_BEING_ATTRIBUTES = CHAR_ATTR_BEGIN`; and
`CHAR_ATTR_NB` is 6, the number of stats in `PAMSG_CHAR_CREATE` and
`APMSG_CHAR_INFO`. -/
theorem attribute_blocks_partition (i : Nat) :
    BASE_ATTR_BEGIN = 0 ∧ BASE_ATTR_END = BASE_ELEM_BEGIN ∧ BASE_ELEM_END = CHAR_ATTR_BEGIN ∧
    BASE_ATTR_BEGIN < BASE_ATTR_END ∧ BASE_ELEM_BEGIN < BASE_ELEM_END ∧
    CHAR_ATTR_BEGIN < CHAR_ATTR_END ∧
    (i < CHAR_ATTR_END ↔
      (BASE_ATTR_BEGIN ≤ i ∧ i < BASE_ATTR_END) ∨ (BASE_ELEM_BEGIN ≤ i ∧ i < BASE_ELEM_END) ∨
        (CHAR_ATTR_BEGIN ≤ i ∧ i < CHAR_ATTR_END)) ∧
    ¬ ((BASE_ATTR_BEGIN ≤ i ∧ i < BASE_ATTR_END) ∧ (BASE_ELEM_BEGIN ≤ i ∧ i < BASE_ELEM_END)) ∧
    ¬ ((BASE_ATTR_BEGIN ≤ i ∧ i < BASE_ATTR_END) ∧ (CHAR_ATTR_BEGIN ≤ i ∧ i < CHAR_ATTR_END)) ∧
    ¬ ((BASE_ELEM_BEGIN ≤ i ∧ i < BASE_ELEM_END) ∧ (CHAR_ATTR_BEGIN ≤ i ∧ i < CHAR_ATTR_END)) ∧
    List.range CHAR_ATTR_END =
      List.range' BASE_ATTR_BEGIN BASE_ATTR_NB ++ List.range' BASE_ELEM_BEGIN BASE_ELEM_NB ++
        List.range' CHAR_ATTR_BEGIN CHAR_ATTR_NB ∧
    BASE_ATTR_NB + BASE_ELEM_NB = NB_BEING_ATTRIBUTES ∧
    NB_BEING_ATTRIBUTES = CHAR_ATTR_BEGIN ∧
    CHAR_ATTR_NB = 6 ∧ CHAR_ATTR_NB = charStatsInMessage := by
  have h1 : BASE_ATTR_BEGIN = 0 := rfl
  have h2 : BASE_ATTR_END = 9 := rfl
  have h3 : BASE_ELEM_BEGIN = 9 := rfl
  have h4 : BASE_ELEM_END = 16 := rfl
  have h5 : CHAR_ATTR_BEGIN = 16 := rfl
  have h6 : CHAR_ATTR_END = 22 := rfl
  refine ⟨rfl, rfl, rfl, by decide, by decide, by decide, ?_, ?_, ?_, ?_, by decide, rfl, rfl,
    rfl, rfl⟩ <;> omega

/-! ## C18: message IDs -/

set_option maxRecDepth 100000 in
theorem allMessageIds_values_nodup : (allMessageIds.map Prod.snd).Nodup := by
  decide

set_option maxRecDepth 100000 in
theorem allMessageIds_values_bounds :
    messageIds.all (fun e => decide (e.2 < XXMSG_INVALID)) = true ∧
    allMessageIds.all (fun e => decide (e.2 < 65536)) = true := by
  decide

/-- C18: the enumerators of the message enumeration, `XXMSG_INVALID` included,
have pairwise distinct values; every enumerator before `XXMSG_INVALID` has a
value below `XXMSG_INVALID`, which is 0x7FFF; every value is below 65536, so
`getId` returns the value of the enumerator stored in `mId`; and two messages
whose IDs are the values of enumerators have the same `getId` only when the
enumerators are the same. -/
theorem message_ids_unambiguous (a b : String × Nat) (m1 m2 : MessageIn)
    (ha : a ∈ allMessageIds) (hb : b ∈ allMessageIds)
    (h1 : m1.mId = a.2) (h2 : m2.mId = b.2) :
    (allMessageIds.map Prod.snd).Nodup ∧
    messageIds.all (fun e => decide (e.2 < XXMSG_INVALID)) = true ∧
    XXMSG_INVALID = 0x7FFF ∧
    allMessageIds.all (fun e => decide (e.2 < 65536)) = true ∧
    m1.getId = (a.2 : Int) ∧
    (m1.getId = m2.getId → a = b) := by
  have hbound : ∀ e ∈ allMessageIds, e.2 < 65536 := by
    intro e he
    have := List.all_eq_true.mp allMessageIds_values_bounds.2 e he
    exact of_decide_eq_true this
  have hid : ∀ (m : MessageIn) (e : String × Nat), e ∈ allMessageIds → m.mId = e.2 →
      m.getId = (e.2 : Int) := by
    intro m e he hm
    have := hbound e he
    unfold MessageIn.getId
    rw [hm]
    apply toInt32_of_range <;> omega
  refine ⟨allMessageIds_values_nodup, allMessageIds_values_bounds.1, rfl,
    allMessageIds_values_bounds.2, hid m1 a ha h1, ?_⟩
  intro heq
  rw [hid m1 a ha h1, hid m2 b hb h2] at heq
  have hval : a.2 = b.2 := by exact_mod_cast heq
  exact List.inj_on_of_nodup_map allMessageIds_values_nodup ha hb hval

/-- Witness of `message_ids_unambiguous`: a message whose ID is the value of
`PAMSG_LOGIN`. -/
theorem message_ids_unambiguous_witness :
    (("PAMSG_LOGIN", 0x0010) : String × Nat) ∈ allMessageIds ∧
    (⟨[], 0, 0x0010, 0⟩ : MessageIn).getId = 16 :=
  ⟨by decide,
    (message_ids_unambiguous ("PAMSG_LOGIN", 0x0010) ("PAMSG_LOGIN", 0x0010)
      ⟨[], 0, 0x0010, 0⟩ ⟨[], 0, 0x0010, 0⟩ (by decide) (by decide) rfl rfl).2.2.2.2.1⟩

/-! ## C17: being states as a bitmask -/

theorem and_two_pow_ne_zero (m k : Nat) : m &&& 2 ^ k ≠ 0 ↔ m.testBit k = true := by
  constructor
  · intro h
    obtain ⟨i, hi⟩ := Nat.ne_zero_implies_bit_true h
    rw [Nat.testBit_and, Nat.testBit_two_pow, Bool.and_eq_true, decide_eq_true_eq] at hi
    rw [hi.2]
    exact hi.1
  · intro h h0
    have hbit : (m &&& 2 ^ k).testBit k = true := by
      rw [Nat.testBit_and, h, Nat.testBit_two_pow_self]
      rfl
    rw [h0, Nat.zero_testBit] at hbit
    cases hbit

theorem testBit_stateMask (S : List Nat) (k : Nat) :
    (stateMask S).testBit k = S.any (fun x => x.testBit k) := by
  induction S with
  | nil =>
    show (0 : Nat).testBit k = false
    exact Nat.zero_testBit k
  | cons s rest ih =>
    show (s ||| stateMask rest).testBit k = (s.testBit k || rest.any (fun x => x.testBit k))
    rw [Nat.testBit_or, ih]

theorem beingStates_eq : beingStates = (List.range 9).map (fun k => 2 ^ k) := by
  decide

theorem beingState_is_bit (s : Nat) (h : s ∈ beingStates) : ∃ k, k < 9 ∧ s = 2 ^ k := by
  rw [beingStates_eq, List.mem_map] at h
  obtain ⟨k, hk, hs⟩ := h
  exact ⟨k, List.mem_range.mp hk, hs.symm⟩

theorem mem_iff_stateMask (S : List Nat) (hS : ∀ x ∈ S, x ∈ beingStates) (s : Nat)
    (hs : s ∈ beingStates) : s ∈ S ↔ stateMask S &&& s ≠ 0 := by
  obtain ⟨k, _, hk⟩ := beingState_is_bit s hs
  rw [hk, and_two_pow_ne_zero, testBit_stateMask, List.any_eq_true]
  constructor
  · intro h
    exact ⟨2 ^ k, h, Nat.testBit_two_pow_self⟩
  · rintro ⟨x, hx, hbit⟩
    obtain ⟨j, _, hj⟩ := beingState_is_bit x (hS x hx)
    rw [hj, Nat.testBit_two_pow, decide_eq_true_eq] at hbit
    rw [← hbit, ← hj]
    exact hx

theorem stateMask_lt (S : List Nat) (hS : ∀ x ∈ S, x ∈ beingStates) : stateMask S < 2 ^ 9 := by
  induction S with
  | nil => decide
  | cons s rest ih =>
    show s ||| stateMask rest < 2 ^ 9
    apply Nat.or_lt_two_pow
    · obtain ⟨k, hk, hs⟩ := beingState_is_bit s (hS s (List.mem_cons_self _ _))
      rw [hs]
      exact Nat.pow_lt_pow_right (by decide) hk
    · exact ih (fun x hx => hS x (List.mem_cons_of_mem _ hx))

/-- C17: the nine being states are the single bits 2^k for k from 0 to 8,
pairwise distinct; for any collection of states, a state belongs to it exactly
when the AND of the collection's mask with the state is non-zero, so two
collections with the same mask hold the same states; and the mask is below
2^9. -/
theorem beingState_bitmask (S T : List Nat) (hS : ∀ x ∈ S, x ∈ beingStates)
    (hT : ∀ x ∈ T, x ∈ beingStates) :
    beingStates = (List.range 9).map (fun k => 2 ^ k) ∧
    beingStates.Nodup ∧
    (∀ s ∈ beingStates, (s ∈ S ↔ stateMask S &&& s ≠ 0)) ∧
    (stateMask S = stateMask T → ∀ s ∈ beingStates, (s ∈ S ↔ s ∈ T)) ∧
    stateMask S < 2 ^ 9 := by
  refine ⟨beingStates_eq, by decide, fun s hs => mem_iff_stateMask S hS s hs, ?_,
    stateMask_lt S hS⟩
  intro heq s hs
  rw [mem_iff_stateMask S hS s hs, mem_iff_stateMask T hT s hs, heq]

/-- Witness of `beingState_bitmask`: poisoned and mad, given in two ways. -/
theorem beingState_bitmask_witness :
    stateMask [STATE_POISONED, STATE_MAD] = 33 ∧
    stateMask [STATE_POISONED, STATE_MAD] = stateMask [STATE_MAD, STATE_POISONED, STATE_MAD] ∧
    (STATE_MAD ∈ [STATE_POISONED, STATE_MAD] ↔
      stateMask [STATE_POISONED, STATE_MAD] &&& STATE_MAD ≠ 0) ∧
    stateMask [STATE_POISONED, STATE_MAD] < 2 ^ 9 :=
  ⟨by decide, by decide,
    (beingState_bitmask [STATE_POISONED, STATE_MAD] [STATE_MAD, STATE_POISONED, STATE_MAD]
      (by decide) (by decide)).2.2.1 STATE_MAD (by decide),
    (beingState_bitmask [STATE_POISONED, STATE_MAD] [STATE_MAD, STATE_POISONED, STATE_MAD]
      (by decide) (by decide)).2.2.2.2⟩

end ManaServ
